import Mathlib

/-!
gochecker: composite health checker

A shallow embedding of `status.go`, `checker.go`, `url_indicator.go` and
`database/indicator.go` of `zacscoding/gochecker`, followed by the properties of
the status model, of the aggregation engine, of the cache/refresh controller and
of the two probes.

Conventions of the embedding

* Go maps keyed by strings are association lists (`GoMap`); `mapSet` is the
  assignment `m[k] = v`, `mapGet` the lookup `m[k]`, `List.length` is `len(m)`.
  The functions do not require key-uniqueness; theorems that need it assume
  `mapWF` (no key occurs twice), which `mapSet` preserves.
* `time.Time` is an integer number of nanoseconds (`Time`), the zero `Time` is
  `0`; `time.Duration` is an `int64`, modelled as an `Int` with `wrapInt64`
  applied where the source does arithmetic on it.
* Every call of `time.Now()` is a separate clock reading, passed as an argument
  in the order in which the source performs them.
* The goroutines of `doHealthCheck` are joined by `wg.Wait()` before the
  results are folded, so a run is determined by the probe results and by the
  order in which they were sent to `resultCh`; that order is the run's
  `Scheduler`.
* What a probe reads from outside the program (the HTTP exchange, the database
  connection) is a parameter of its `Health`; an `err` of the source is an
  `Except.error` carrying `err.Error()`.
* JSON documents are value trees (`Json`), not texts.
-/

namespace gochecker

/-! ## status.go -/

/-- Go: `type Status string`. -/
abbrev Status := String

/-- Go: `up Status = "UP"`. -/
def up : Status := "UP"

/-- Go: `down Status = "DOWN"`. -/
def down : Status := "DOWN"

/-- Go: `unknown Status = "Unknown"`. -/
def unknown : Status := "Unknown"

/-- Values stored in `details` (`interface{}` in the source): the probes of
this repository store strings and integers. -/
inductive Detail where
  | str (s : String)
  | int (n : Int)
  | bool (b : Bool)
  | null
  deriving DecidableEq, Repr

/-- Go map with string keys, as an association list. -/
abbrev GoMap (α : Type) := List (String × α)

/-- Go: `m[k] = v`: overwrite the entry of `k` in place, or add one. -/
def mapSet {α : Type} : GoMap α → String → α → GoMap α
  | [], k, v => [(k, v)]
  | (k', v') :: rest, k, v =>
    if k' = k then (k, v) :: rest else (k', v') :: mapSet rest k v

/-- Go: `v, ok := m[k]`. -/
def mapGet {α : Type} : GoMap α → String → Option α
  | [], _ => none
  | (k', v') :: rest, k => if k' = k then some v' else mapGet rest k

/-- The keys of a map. -/
def mapKeys {α : Type} (m : GoMap α) : List String := m.map Prod.fst

/-- Well-formed map: no key occurs twice. -/
def mapWF {α : Type} (m : GoMap α) : Prop := (mapKeys m).Nodup

instance {α : Type} (m : GoMap α) : Decidable (mapWF m) := by
  unfold mapWF; infer_instance

/-- Go: `type ComponentStatus struct { status Status; details map[string]interface{} }`. -/
structure ComponentStatus where
  status : Status
  details : GoMap Detail
  deriving DecidableEq, Repr

/-- Go: `type HealthStatus struct { Status; Components map[string]ComponentStatus }`. -/
structure HealthStatus where
  Status : Status
  Components : GoMap ComponentStatus
  deriving DecidableEq, Repr

/-- Go: `func (s *HealthStatus) IsUp() bool`. -/
def HealthStatus.IsUp (s : HealthStatus) : Bool := s.Status == up

/-- Go: `func (s *HealthStatus) IsDown() bool`. -/
def HealthStatus.IsDown (s : HealthStatus) : Bool := s.Status == down

/-- Go: `func (s *ComponentStatus) WithUp() *ComponentStatus`. -/
def ComponentStatus.WithUp (s : ComponentStatus) : ComponentStatus :=
  { s with status := up }

/-- Go: `func (s *ComponentStatus) WithDown() *ComponentStatus`. -/
def ComponentStatus.WithDown (s : ComponentStatus) : ComponentStatus :=
  { s with status := down }

/-- Go: `func (s *ComponentStatus) WithDetail(key string, value interface{})`. -/
def ComponentStatus.WithDetail (s : ComponentStatus) (key : String) (value : Detail) :
    ComponentStatus :=
  { s with details := mapSet s.details key value }

/-- Go: `func (s *ComponentStatus) IsUp() bool`. -/
def ComponentStatus.IsUp (s : ComponentStatus) : Bool := s.status == up

/-- Go: `func (s *ComponentStatus) IsDown() bool`. -/
def ComponentStatus.IsDown (s : ComponentStatus) : Bool := s.status == down

/-- Go: `func NewComponentStatus() *ComponentStatus`. -/
def NewComponentStatus : ComponentStatus :=
  { status := unknown, details := [] }

/-! ## checker.go -/

/-- Nanoseconds; the zero `time.Time` is `0`. -/
abbrev Time := Int

/-- Go: `time.Duration` (an `int64` count of nanoseconds). -/
abbrev Duration := Int

/-- Two's-complement wrap-around of `int64` arithmetic. -/
def wrapInt64 (x : Int) : Int := (x + 2 ^ 63) % 2 ^ 64 - 2 ^ 63

/-- The values of an `int64`. -/
def isInt64 (x : Int) : Prop := -(2 ^ 63) ≤ x ∧ x < 2 ^ 63

instance (x : Int) : Decidable (isInt64 x) := by
  unfold isInt64; infer_instance

/-- Go: `t.Add(d)`. -/
def Time.Add (t : Time) (d : Duration) : Time := t + d

/-- Go: `t.Before(u)`. -/
def Time.Before (t u : Time) : Bool := decide (t < u)

/-- Go: `t.After(u)`. -/
def Time.After (t u : Time) : Bool := decide (u < t)

/-- Go: `type Indicator interface { Health(ctx) ComponentStatus }`, for a probe
that returns. A probe is a stateful object: `count` is the number of times its
`Health` has been invoked (the `count` field of `upIndicator` and
`downIndicator` in `checker_test.go`) and `respond n` is the status that the
invocation number `n` returns, so that the result of a probe may change from one
run to the next. Each registry entry holds its own probe object. -/
structure Indicator where
  count : Nat
  respond : Nat → ComponentStatus

/-- Go: `indicator.Health(ctx)`: the returned status and the probe afterwards. -/
def Indicator.Health (i : Indicator) : ComponentStatus × Indicator :=
  (i.respond i.count, { i with count := i.count + 1 })

/-- Go: `upIndicator` of `checker_test.go`. -/
def upIndicator : Indicator :=
  { count := 0, respond := fun _ => NewComponentStatus.WithUp }

/-- Go: `downIndicator` of `checker_test.go`. -/
def downIndicator : Indicator :=
  { count := 0, respond := fun _ => NewComponentStatus.WithDown }

/-- Go: `type CompositeHealthChecker struct`. `cacheResult` is a pointer in the
source (`none` is `nil`); `backgroundDone` tells whether `backgroundCancel` has
been called. -/
structure CompositeHealthChecker where
  checkers : GoMap Indicator
  observers : GoMap Indicator
  background : Bool
  backgroundInterval : Duration
  backgroundDone : Bool
  cacheResult : Option HealthStatus
  cacheValidTime : Time
  cacheTTL : Duration

/-- Go: `AddChecker` (and `AddCheckerFn`, which wraps the function in an
`indicator`). -/
def CompositeHealthChecker.AddChecker (c : CompositeHealthChecker) (name : String)
    (checker : Indicator) : CompositeHealthChecker :=
  { c with checkers := mapSet c.checkers name checker }

/-- Go: `AddObserver` (and `AddObserverFn`). -/
def CompositeHealthChecker.AddObserver (c : CompositeHealthChecker) (name : String)
    (checker : Indicator) : CompositeHealthChecker :=
  { c with observers := mapSet c.observers name checker }

/-- Go: the local `type state struct` of `doHealthCheck`: one message of
`resultCh`. -/
structure state where
  name : String
  status : ComponentStatus
  observable : Bool
  deriving DecidableEq, Repr

/-- The message makes the aggregate `DOWN`: it comes from a checker that is not up. -/
def state.fails (r : state) : Bool := !r.observable && !r.status.IsUp

/-- The order in which the goroutines of one run deliver their results to
`resultCh`: any rearrangement of the messages sent. -/
structure Scheduler where
  run : List state → List state
  perm : ∀ l, (run l).Perm l

/-- Results arrive in the order in which the goroutines were started. -/
def Scheduler.fifo : Scheduler := ⟨id, fun l => List.Perm.refl l⟩

/-- Results arrive in the opposite order. -/
def Scheduler.lifo : Scheduler := ⟨List.reverse, fun l => List.reverse_perm l⟩

/-- The messages sent by the goroutines started for one role map
(`checker.go` lines 137-143 and 145-151). -/
def sendAll (m : GoMap Indicator) (observable : Bool) : List state :=
  m.map fun e => { name := e.1, status := e.2.Health.1, observable := observable }

/-- The probes of one role map after each has been invoked once. -/
def invokeAll (m : GoMap Indicator) : GoMap Indicator :=
  m.map fun e => (e.1, e.2.Health.2)

/-- One iteration of the loop `for result := range resultCh`
(`checker.go` lines 157-162). -/
def aggregateStep (hs : HealthStatus) (result : state) : HealthStatus :=
  let hs := if !result.observable && !result.status.IsUp then { hs with Status := down } else hs
  { hs with Components := mapSet hs.Components result.name result.status }

/-- Go: `doHealthCheck`: the returned status and the checker afterwards (its
probes have been invoked). -/
def CompositeHealthChecker.doHealthCheck (c : CompositeHealthChecker) (sched : Scheduler) :
    HealthStatus × CompositeHealthChecker :=
  let hs : HealthStatus := { Status := up, Components := [] }
  let resultCh := sched.run (sendAll c.checkers false ++ sendAll c.observers true)
  (resultCh.foldl aggregateStep hs,
    { c with checkers := invokeAll c.checkers, observers := invokeAll c.observers })

/-- Go: `cacheable := c.cacheTTL != 0` (`checker.go` line 68). -/
def CompositeHealthChecker.cacheable (c : CompositeHealthChecker) : Bool := c.cacheTTL != 0

/-- Go: `Health`. `now₁` is the clock reading of line 75 (taken only when
`cacheResult != nil`), `now₂` the one of line 83, after the aggregation. -/
def CompositeHealthChecker.Health (c : CompositeHealthChecker) (now₁ now₂ : Time)
    (sched : Scheduler) : HealthStatus × CompositeHealthChecker :=
  if !c.cacheable then c.doHealthCheck sched
  else
    match c.cacheResult with
    | some cached =>
      if Time.Before now₁ c.cacheValidTime then (cached, c)
      else
        let r := c.doHealthCheck sched
        (r.1, { r.2 with cacheResult := some r.1, cacheValidTime := Time.Add now₂ c.cacheTTL })
    | none =>
      let r := c.doHealthCheck sched
      (r.1, { r.2 with cacheResult := some r.1, cacheValidTime := Time.Add now₂ c.cacheTTL })

/-- The checker after a run at the end of which the result is stored in the cache
(`checker.go` lines 79-83 and 110-111), `now` being the clock reading of the store. -/
def CompositeHealthChecker.refreshed (c : CompositeHealthChecker) (now : Time)
    (sched : Scheduler) : CompositeHealthChecker :=
  { (c.doHealthCheck sched).2 with
    cacheResult := some (c.doHealthCheck sched).1
    cacheValidTime := Time.Add now c.cacheTTL }

/-- Go: `Close`. -/
def CompositeHealthChecker.Close (c : CompositeHealthChecker) : CompositeHealthChecker :=
  if c.background then { c with backgroundDone := true } else c

/-- The local state of the goroutine `loopChecker`: its variable `nextCheck`,
and whether it has returned. -/
structure LoopState where
  nextCheck : Time
  returned : Bool
  deriving DecidableEq, Repr

/-- The goroutine as started by `NewHealthChecker`: `var nextCheck time.Time`. -/
def LoopState.init : LoopState := { nextCheck := 0, returned := false }

/-- The two cases of the `select` of `loopChecker`. A tick carries the three
clock readings of lines 104, 111 and 113 and the scheduling of its run. -/
inductive LoopEvent where
  | tick (now₁ now₂ now₃ : Time) (sched : Scheduler)
  | done

/-- Go: one iteration of the `for` loop of `loopChecker`. -/
def CompositeHealthChecker.loopChecker (c : CompositeHealthChecker) (l : LoopState) :
    LoopEvent → CompositeHealthChecker × LoopState
  | .tick now₁ now₂ now₃ sched =>
    if l.returned then (c, l)
    else if Time.After now₁ l.nextCheck then
      if c.checkers.length + c.observers.length == 0 then (c, l)
      else
        let r := c.doHealthCheck sched
        ({ r.2 with cacheResult := some r.1, cacheValidTime := Time.Add now₂ c.cacheTTL },
          { l with nextCheck := Time.Add now₃ c.backgroundInterval })
    else (c, l)
  | .done => (c, { l with returned := true })

/-- Go: `type HealthCheckerOption func(r *CompositeHealthChecker)`. -/
abbrev HealthCheckerOption := CompositeHealthChecker → CompositeHealthChecker

/-- Go: `WithBackground`. -/
def WithBackground (interval : Duration) : HealthCheckerOption := fun c =>
  { c with background := true, backgroundInterval := interval,
           cacheTTL := wrapInt64 (2 * interval) }

/-- Go: `WithCacheTTL`. -/
def WithCacheTTL (cacheTTL : Duration) : HealthCheckerOption := fun c =>
  { c with cacheTTL := cacheTTL }

/-- Go: `NewHealthChecker`, lines 185-199: the checker as the options leave it.
Lines 200-203, which start the goroutine `loopChecker` when `background` is set,
are `startBackground` below. -/
def NewHealthChecker (opts : List HealthCheckerOption) : CompositeHealthChecker :=
  let checker : CompositeHealthChecker :=
    { checkers := [], observers := [], background := false, backgroundInterval := 0,
      backgroundDone := false, cacheResult := none, cacheValidTime := 0, cacheTTL := 0 }
  opts.foldl (fun c opt => opt c) checker

/-- Go: `time.NewTicker(d)`, which panics when `d` is not positive (`.error` is
the panic). -/
def NewTicker (d : Duration) : Except String Unit :=
  if d ≤ 0 then .error "non-positive interval for NewTicker" else .ok ()

/-- Go: the start of `loopChecker` (`checker.go` lines 95-99), up to the loop:
the ticker is made from `backgroundInterval`. The goroutine either enters its
loop, in the state `LoopState.init`, or panics in `NewTicker`; nothing recovers
that panic, which ends the program. -/
def CompositeHealthChecker.loopCheckerStart (c : CompositeHealthChecker) :
    Except String LoopState :=
  match NewTicker c.backgroundInterval with
  | .error v => .error v
  | .ok _ => .ok LoopState.init

/-- Go: `NewHealthChecker`, lines 200-203: `none` when no goroutine is started,
otherwise what the goroutine `loopChecker` does at its start. -/
def CompositeHealthChecker.startBackground (c : CompositeHealthChecker) :
    Option (Except String LoopState) :=
  if c.background then some c.loopCheckerStart else none

/-- A sequence of `Health` calls, one after the other (the calls are serialised
by `c.mutex`): the statuses returned, in order, and the checker afterwards. -/
def CompositeHealthChecker.HealthCalls (c : CompositeHealthChecker) :
    List (Time × Time × Scheduler) → List HealthStatus × CompositeHealthChecker
  | [] => ([], c)
  | (now₁, now₂, sched) :: rest =>
    let r := c.Health now₁ now₂ sched
    let rs := HealthCalls r.2 rest
    (r.1 :: rs.1, rs.2)

/-- The invocation counts of the probes of a role map. -/
def counts (m : GoMap Indicator) : List (String × Nat) :=
  m.map fun e => (e.1, e.2.count)

/-- A registry in which the name `db` is registered in both roles: an up probe
as a checker and a down probe as an observer. -/
def sharedNameRegistry : CompositeHealthChecker :=
  ((NewHealthChecker []).AddChecker "db" upIndicator).AddObserver "db" downIndicator

/-- The registry of the test case `All Up Indicators with Down observers`. -/
def testRegistry : CompositeHealthChecker :=
  ((((NewHealthChecker []).AddChecker "checker-0" upIndicator).AddChecker "checker-1"
    upIndicator).AddObserver "observer-0" downIndicator).AddObserver "observer-1" upIndicator

/-- A checker whose cache, valid until time `100`, holds a `DOWN` result over the
registry of `testRegistry`, with a time to live of `ttl`. -/
def cachedChecker (ttl : Duration) : CompositeHealthChecker :=
  { testRegistry with
    cacheTTL := ttl
    cacheResult := some { Status := down, Components := [] }
    cacheValidTime := 100 }

/-- The checker of `TestHealthChecker_Health_Background`: a background interval
of 10ms and one up probe. -/
def backgroundChecker : CompositeHealthChecker :=
  (NewHealthChecker [WithBackground 10000000]).AddChecker "checker1" upIndicator

/-! ## Probes that may panic -/

/-- Go: an implementation of `Indicator` whose `Health` may panic instead of
returning: `behave n` is what the invocation number `n` does, `.ok s` when it
returns the status `s`, `.error v` when it panics with the value `v`. -/
structure Probe where
  count : Nat
  behave : Nat → Except String ComponentStatus

/-- Go: `indicator.Health(ctx)` on a probe that may panic. -/
def Probe.Health (p : Probe) : Except String ComponentStatus := p.behave p.count

/-- A probe that returns, seen as a probe that may panic. -/
def Indicator.toProbe (i : Indicator) : Probe :=
  { count := i.count, behave := fun n => .ok (i.respond n) }

/-- The messages that the goroutines started for one role map (`checker.go`
lines 137-143 and 145-151) send to `resultCh` when probes may panic: a goroutine
whose probe returns sends its message and then runs the deferred `wg.Done()`; a
goroutine whose probe panics runs the deferred `wg.Done()` and sends nothing. -/
def sentBy : GoMap Probe → Bool → List state
  | [], _ => []
  | (name, p) :: rest, observable =>
    match p.Health with
    | .ok s => { name := name, status := s, observable := observable } :: sentBy rest observable
    | .error _ => sentBy rest observable

/-- The panics raised in the goroutines started for one role map. Nothing in the
source calls `recover`, so each of them is a panic that ends the program. -/
def panicsOf : GoMap Probe → List String
  | [] => []
  | (_, p) :: rest =>
    match p.Health with
    | .ok _ => panicsOf rest
    | .error v => v :: panicsOf rest

/-- The probes of a role map whose invocation returns. -/
def returning (m : GoMap Probe) : GoMap Probe :=
  m.filter fun e =>
    match e.2.Health with
    | .ok _ => true
    | .error _ => false

/-- What one call of `doHealthCheck` does when probes may panic: `panics` are
the unrecovered panics of its goroutines (the program ends with one of them
unless the list is empty), and `returned` is the status that the call returns,
`none` when the program ends before the call has returned. -/
structure Run where
  panics : List String
  returned : Option HealthStatus

/-- Go: `doHealthCheck` over role maps whose probes may panic. Every goroutine
runs `wg.Done()`, also the panicking ones, so `wg.Wait()` returns and the
messages sent are folded; when a goroutine has panicked the program is ending
meanwhile, and `returnsBeforeExit` tells whether the call still returns before
the end. -/
def doHealthCheckOrPanic (checkers observers : GoMap Probe) (sched : Scheduler)
    (returnsBeforeExit : Bool) : Run :=
  let hs : HealthStatus := { Status := up, Components := [] }
  let resultCh := sched.run (sentBy checkers false ++ sentBy observers true)
  let panics := panicsOf checkers ++ panicsOf observers
  { panics := panics
    returned :=
      if panics.isEmpty || returnsBeforeExit then some (resultCh.foldl aggregateStep hs)
      else none }

/-- A role map of probes that return, seen as probes that may panic. -/
def liftProbes (m : GoMap Indicator) : GoMap Probe :=
  m.map fun e => (e.1, e.2.toProbe)

/-- A probe that returns `UP`. -/
def upProbe : Probe := upIndicator.toProbe

/-- A probe that panics with the value `boom`. -/
def panicProbe : Probe := { count := 0, behave := fun _ => .error "boom" }

/-! ## url_indicator.go -/

/-- Go: `t.Sub(u)`: the difference, saturated to the range of `Duration`. -/
def Time.Sub (t u : Time) : Duration := max (-(2 ^ 63)) (min (2 ^ 63 - 1) (t - u))

/-- Go: `type UrlIndicator struct`. -/
structure UrlIndicator where
  Name : String
  Method : String
  Url : String
  Headers : GoMap (List String)
  timeout : Duration

/-- Go: `*http.Request`, as far as `UrlIndicator.Health` builds it: `Header`
lists the pairs given to `req.Header.Add`, in the order of the calls. -/
structure Request where
  Method : String
  Url : String
  Header : List (String × String)
  deriving DecidableEq, Repr

/-- The HTTP library and the network, as seen by one call of
`UrlIndicator.Health`: `NewRequest method url` is `http.NewRequest(method, url,
nil)` and `Do timeout req` is `cli.Do(req)` for a client with that `Timeout`,
giving the `StatusCode` of the response; `.error msg` is a non-nil `err` with
`err.Error() == msg`. -/
structure HttpWorld where
  NewRequest : String → String → Except String Request
  Do : Duration → Request → Except String Int

/-- Go: the loops of `url_indicator.go` lines 38-44. -/
def addHeaders (headers : GoMap (List String)) (req : Request) : Request :=
  if headers.length != 0 then
    headers.foldl (fun req kv =>
      kv.2.foldl (fun req value => { req with Header := req.Header ++ [(kv.1, value)] }) req) req
  else req

/-- Go: the `timeout` of `url_indicator.go` lines 19-25; `deadline` is
`ctx.Deadline()` (`none` when the context has none) and `now` the clock reading
of line 22. -/
def UrlIndicator.clientTimeout (u : UrlIndicator) (deadline : Option Time) (now : Time) :
    Duration :=
  match deadline with
  | some d => Time.Sub d now
  | none => u.timeout

/-- Go: `func (u *UrlIndicator) Health(ctx context.Context) ComponentStatus`. -/
def UrlIndicator.Health (u : UrlIndicator) (deadline : Option Time) (now : Time)
    (w : HttpWorld) : ComponentStatus :=
  let timeout : Duration := u.clientTimeout deadline now
  let status := NewComponentStatus
  match w.NewRequest u.Method u.Url with
  | .error err => (status.WithDown).WithDetail "err" (.str err)
  | .ok req =>
    match w.Do timeout (addHeaders u.Headers req) with
    | .error err => (status.WithDown).WithDetail "err" (.str err)
    | .ok StatusCode =>
      let status := if StatusCode = 200 then status.WithUp else status.WithDown
      status.WithDetail "status" (.int StatusCode)

/-- Go: `NewUrlIndicator`. -/
def NewUrlIndicator (name method url : String) (headers : GoMap (List String))
    (timeout : Duration) : UrlIndicator :=
  { Name := name, Method := method, Url := url, Headers := headers, timeout := timeout }

/-- An HTTP world in which the request is built and answered with `code`. -/
def answering (code : Int) : HttpWorld :=
  { NewRequest := fun m u => .ok { Method := m, Url := u, Header := [] }
    Do := fun _ _ => .ok code }

/-- An HTTP world in which the request is built and the call fails with `msg`. -/
def failing (msg : String) : HttpWorld :=
  { NewRequest := fun m u => .ok { Method := m, Url := u, Header := [] }
    Do := fun _ _ => .error msg }

/-! ## status.go: JSON -/

/-- JSON values. The members of an object are an unordered map: the order in
which `encoding/json` writes them is not modelled. -/
inductive Json where
  | null
  | bool (b : Bool)
  | num (n : Int)
  | str (s : String)
  | obj (members : List (String × Json))

/-- The member `key` of a JSON object. -/
def Json.get : Json → String → Option Json
  | .obj members, key => mapGet members key
  | _, _ => none

/-- The member names of a JSON object. -/
def Json.keys : Json → List String
  | .obj members => mapKeys members
  | _ => []

/-- Go: `json.Marshal` of a value stored in `details`. -/
def Detail.toJson : Detail → Json
  | .str s => .str s
  | .int n => .num n
  | .bool b => .bool b
  | .null => .null

/-- Go: `func (s ComponentStatus) MarshalJSON() ([]byte, error)`, on a status
whose `details` map is not nil, as `NewComponentStatus` makes it; the statuses
with a nil map are covered by `ComponentStatusValue.MarshalJSON`. -/
def ComponentStatus.MarshalJSON (s : ComponentStatus) : Json :=
  let data : GoMap Json := []
  let data := mapSet data "status" (.str s.status)
  let data := mapSet data "details" (.obj (s.details.map fun e => (e.1, e.2.toJson)))
  .obj data

/-- Go: `json.Marshal(hs)` for a `HealthStatus` whose `Components` map is not
nil, as `doHealthCheck` makes it: the struct has the tags `json:"status"` and
`json:"components"`, and each component is encoded by its `MarshalJSON`. -/
def HealthStatus.Marshal (hs : HealthStatus) : Json :=
  .obj [("status", .str hs.Status),
    ("components", .obj (hs.Components.map fun e => (e.1, e.2.MarshalJSON)))]

/-- Go: any value of the type `ComponentStatus`: `details` may be the nil map
(`none`), as it is in the zero value `ComponentStatus{}` and in
`new(ComponentStatus).WithUp()`. `ComponentStatus` above is the case of a map
that is not nil. -/
structure ComponentStatusValue where
  status : Status
  details : Option (GoMap Detail)

/-- A status with a details map, as a value of the Go type. -/
def ComponentStatus.toValue (s : ComponentStatus) : ComponentStatusValue :=
  { status := s.status, details := some s.details }

/-- Go: the zero value `ComponentStatus{}`. -/
def ComponentStatusValue.zero : ComponentStatusValue := { status := "", details := none }

/-- Go: `json.Marshal` of a `map[string]interface{}`: `null` for the nil map, an
object otherwise. -/
def detailsToJson : Option (GoMap Detail) → Json
  | none => .null
  | some details => .obj (details.map fun e => (e.1, e.2.toJson))

/-- Go: `func (s ComponentStatus) MarshalJSON() ([]byte, error)`, on any value
of the type. -/
def ComponentStatusValue.MarshalJSON (s : ComponentStatusValue) : Json :=
  let data : GoMap Json := []
  let data := mapSet data "status" (.str s.status)
  let data := mapSet data "details" (detailsToJson s.details)
  .obj data

/-- Go: any value of the type `HealthStatus`: `Components` may be the nil map
(`none`), as in the zero value. -/
structure HealthStatusValue where
  Status : Status
  Components : Option (GoMap ComponentStatusValue)

/-- Go: `json.Marshal` of a `map[string]ComponentStatus`. -/
def componentsToJson : Option (GoMap ComponentStatusValue) → Json
  | none => .null
  | some components => .obj (components.map fun e => (e.1, e.2.MarshalJSON))

/-- Go: `json.Marshal(hs)` for any value of the type `HealthStatus`. -/
def HealthStatusValue.Marshal (hs : HealthStatusValue) : Json :=
  .obj [("status", .str hs.Status), ("components", componentsToJson hs.Components)]

/-- The statuses that a program builds from `NewComponentStatus()` with the
methods `WithUp`, `WithDown` and `WithDetail`. -/
inductive Built : ComponentStatus → Prop where
  | new : Built NewComponentStatus
  | withUp {s : ComponentStatus} : Built s → Built s.WithUp
  | withDown {s : ComponentStatus} : Built s → Built s.WithDown
  | withDetail {s : ComponentStatus} (key : String) (value : Detail) :
      Built s → Built (s.WithDetail key value)

/-- Go: `json.Unmarshal` into a `ComponentStatus`. The type declares no
`UnmarshalJSON` and both of its fields are unexported, so the decoder of
`encoding/json` accepts an object (or `null`) and sets no field: the result is
the zero value. -/
def ComponentStatus.Unmarshal : Json → Except String ComponentStatus
  | .obj _ => .ok { status := "", details := [] }
  | .null => .ok { status := "", details := [] }
  | _ => .error "json: cannot unmarshal into Go value of type gochecker.ComponentStatus"

/-- Go: the decoding of the member `components` into a
`map[string]ComponentStatus`, one assignment `m[name] = value` per member. -/
def unmarshalComponents :
    List (String × Json) → GoMap ComponentStatus → Except String (GoMap ComponentStatus)
  | [], m => .ok m
  | (name, j) :: rest, m =>
    match ComponentStatus.Unmarshal j with
    | .error e => .error e
    | .ok value => unmarshalComponents rest (mapSet m name value)

/-- Go: `json.Unmarshal(data, &hs)` for a `HealthStatus`, on documents whose
member names are spelled as in the tags: `status` is decoded into the field
`Status`, `components` into the field `Components`. -/
def HealthStatus.Unmarshal : Json → Except String HealthStatus
  | .null => .ok { Status := "", Components := [] }
  | .obj members =>
    let status : Except String String :=
      match mapGet members "status" with
      | none => .ok ""
      | some .null => .ok ""
      | some (.str s) => .ok s
      | some _ => .error "json: cannot unmarshal into Go struct field HealthStatus.status"
    let components : Except String (GoMap ComponentStatus) :=
      match mapGet members "components" with
      | none => .ok []
      | some .null => .ok []
      | some (.obj cs) => unmarshalComponents cs []
      | some _ => .error "json: cannot unmarshal into Go struct field HealthStatus.components"
    match status, components with
    | .ok s, .ok cs => .ok { Status := s, Components := cs }
    | .error e, _ => .error e
    | _, .error e => .error e
  | _ => .error "json: cannot unmarshal into Go value of type gochecker.HealthStatus"

/-- The zero value of `ComponentStatus`. -/
def zeroComponentStatus : ComponentStatus := { status := "", details := [] }

/-- A status with one component, as the database probe reports it. -/
def sampleHealthStatus : HealthStatus :=
  { Status := up
    Components := [("db", (NewComponentStatus.WithDetail "database" (.str "mysql")).WithUp)] }

/-! ## database/indicator.go -/

namespace database

/-- Go: `*sql.DB`, as seen by one call of `Indicator.Health`: `QueryRowScan n q`
is `db.QueryRowContext(ctx, q).Scan(&s)` made as the operation number `n` of
the call, giving the scanned string, and `Ping n` is `db.PingContext(ctx)`;
`.error msg` is a non-nil `err` with `err.Error() == msg`. -/
structure DB where
  QueryRowScan : Nat → String → Except String String
  Ping : Nat → Except String Unit

/-- Go: `type Indicator struct` of package `database`; `db` is a pointer
(`none` is `nil`). -/
structure Indicator where
  db : Option DB
  driverName : String
  validatorQuery : String
  versionQuery : String

/-- Go: `func (i *Indicator) Health(ctx context.Context) gochecker.ComponentStatus`. -/
def Indicator.Health (i : Indicator) : ComponentStatus :=
  let status := NewComponentStatus
  match i.db with
  | none => status
  | some db =>
    let status := status.WithDetail "database" (.str i.driverName)
    let validation : ComponentStatus × Except String Unit :=
      if i.validatorQuery != "" then
        (status.WithDetail "validationQuery" (.str i.validatorQuery),
          (db.QueryRowScan 0 i.validatorQuery).map fun _ => ())
      else
        (status.WithDetail "validationQuery" (.str "ping()"), db.Ping 0)
    let status := validation.1
    match validation.2 with
    | .error err => (status.WithDown).WithDetail "err" (.str err)
    | .ok _ =>
      let status :=
        if i.versionQuery != "" then
          match db.QueryRowScan 1 i.versionQuery with
          | .error err => status.WithDetail "version" (.str err)
          | .ok version => status.WithDetail "version" (.str version)
        else status
      status.WithUp

/-- The error of the validation step of `Health` (`indicator.go` lines 36-42): of
the validation query, or of the ping when that query is empty. -/
def Indicator.validation (i : Indicator) (db : DB) : Except String Unit :=
  if i.validatorQuery != "" then (db.QueryRowScan 0 i.validatorQuery).map fun _ => ()
  else db.Ping 0

/-- Go: `NewIndicator`. -/
def NewIndicator (db : Option DB) (driverName validationQuery versionQuery : String) :
    Indicator :=
  { db := db, driverName := driverName, validatorQuery := validationQuery,
    versionQuery := versionQuery }

/-- Go: `MySQLValidationQuery`. -/
def MySQLValidationQuery : String := "SELECT 1"

/-- Go: `MySQLVersionQuery`. -/
def MySQLVersionQuery : String := "SELECT VERSION()"

/-- Go: `NewMySQLIndicator`. -/
def NewMySQLIndicator (db : Option DB) : Indicator :=
  NewIndicator db "mysql" MySQLValidationQuery MySQLVersionQuery

/-- The mock of the test `MySQL-Indicator Up with version query fail`. -/
def versionFailsDB : DB :=
  { QueryRowScan := fun _ q => if q = MySQLValidationQuery then .ok "1" else .error "force error"
    Ping := fun _ => .ok () }

/-- The mock of the test `MySQL-Indicator Down`. -/
def validationFailsDB : DB :=
  { QueryRowScan := fun _ _ => .error "force error"
    Ping := fun _ => .error "force error" }

/-- A database probe as it is registered in a `CompositeHealthChecker`: every
invocation is a call of `Health`. -/
def Indicator.asIndicator (i : Indicator) : gochecker.Indicator :=
  { count := 0, respond := fun _ => i.Health }

end database

/-- Two messages of checkers, one up and one down. -/
def upThenDown : List state :=
  [{ name := "checker-0", status := NewComponentStatus.WithUp, observable := false },
   { name := "checker-1", status := NewComponentStatus.WithDown, observable := false }]

/-! ## Lemmas on maps -/

theorem mapGet_mapSet {α : Type} (m : GoMap α) (k k' : String) (v : α) :
    mapGet (mapSet m k v) k' = if k = k' then some v else mapGet m k' := by
  induction m with
  | nil => simp [mapSet, mapGet]
  | cons e rest ih =>
    obtain ⟨a, b⟩ := e
    by_cases h : a = k
    · subst h
      by_cases h' : a = k' <;> simp [mapSet, mapGet, h']
    · by_cases h' : a = k'
      · subst h'
        have hk : ¬ k = a := fun x => h x.symm
        simp [mapSet, mapGet, h, hk]
      · simp [mapSet, mapGet, h, h', ih]

theorem mapKeys_mapSet_of_not_mem {α : Type} (m : GoMap α) (k : String) (v : α)
    (h : k ∉ mapKeys m) : mapKeys (mapSet m k v) = mapKeys m ++ [k] := by
  induction m with
  | nil => simp [mapSet, mapKeys]
  | cons e rest ih =>
    obtain ⟨a, b⟩ := e
    have ha : ¬ a = k := by
      intro x; apply h; simp [mapKeys, x]
    have hr : k ∉ mapKeys rest := by
      intro x; apply h; simp only [mapKeys] at x; simp [mapKeys, x]
    have := ih hr
    simp only [mapKeys] at this
    simp [mapSet, mapKeys, ha, this]

theorem mapKeys_mapSet_of_mem {α : Type} (m : GoMap α) (k : String) (v : α)
    (h : k ∈ mapKeys m) : mapKeys (mapSet m k v) = mapKeys m := by
  induction m with
  | nil => simp [mapKeys] at h
  | cons e rest ih =>
    obtain ⟨a, b⟩ := e
    by_cases ha : a = k
    · simp [mapSet, mapKeys, ha]
    · have hr : k ∈ mapKeys rest := by
        simp only [mapKeys, List.map_cons, List.mem_cons] at h
        rcases h with h | h
        · exact absurd h.symm ha
        · exact h
      have := ih hr
      simp only [mapKeys] at this
      simp [mapSet, mapKeys, ha, this]

theorem mapWF_mapSet {α : Type} (m : GoMap α) (k : String) (v : α) (h : mapWF m) :
    mapWF (mapSet m k v) := by
  unfold mapWF at h ⊢
  by_cases hk : k ∈ mapKeys m
  · rw [mapKeys_mapSet_of_mem m k v hk]
    exact h
  · rw [mapKeys_mapSet_of_not_mem m k v hk]
    exact List.Nodup.append h (List.nodup_singleton k)
      (fun a h₁ h₂ => hk (List.mem_singleton.mp h₂ ▸ h₁))

/-! ## Lemmas on the fold of `doHealthCheck` -/

theorem foldl_aggregateStep_Status (l : List state) (hs : HealthStatus) :
    (l.foldl aggregateStep hs).Status = if l.any state.fails then down else hs.Status := by
  induction l generalizing hs with
  | nil => simp
  | cons r rest ih =>
    rw [List.foldl_cons, ih]
    by_cases hr : r.fails = true
    · have : (aggregateStep hs r).Status = down := by
        unfold state.fails at hr
        simp [aggregateStep, hr]
      simp [hr, this]
    · have : (aggregateStep hs r).Status = hs.Status := by
        unfold state.fails at hr
        simp [aggregateStep, hr]
      simp [hr, this]

theorem any_fails_perm {l₁ l₂ : List state} (h : l₁.Perm l₂) :
    l₁.any state.fails = l₂.any state.fails := by
  rw [Bool.eq_iff_iff]
  simp only [List.any_eq_true]
  constructor
  · rintro ⟨r, hr, hf⟩
    exact ⟨r, h.mem_iff.mp hr, hf⟩
  · rintro ⟨r, hr, hf⟩
    exact ⟨r, h.mem_iff.mpr hr, hf⟩

theorem any_fails_sendAll_true (m : GoMap Indicator) :
    (sendAll m true).any state.fails = false := by
  induction m with
  | nil => rfl
  | cons e rest ih =>
    simp only [sendAll, List.map_cons, List.any_cons] at ih ⊢
    simp [state.fails, ih]

theorem any_fails_sendAll_false (m : GoMap Indicator) :
    (sendAll m false).any state.fails = true ↔ ∃ e ∈ m, e.2.Health.1.IsUp = false := by
  simp only [sendAll, List.any_eq_true, List.mem_map]
  constructor
  · rintro ⟨r, ⟨e, he, rfl⟩, hf⟩
    refine ⟨e, he, ?_⟩
    simpa [state.fails] using hf
  · rintro ⟨e, he, hf⟩
    refine ⟨_, ⟨e, he, rfl⟩, ?_⟩
    simpa [state.fails] using hf

/-- The aggregate status of a run depends on the checkers only. -/
theorem doHealthCheck_Status (c : CompositeHealthChecker) (sched : Scheduler) :
    (c.doHealthCheck sched).1.Status =
      if (sendAll c.checkers false).any state.fails then down else up := by
  unfold CompositeHealthChecker.doHealthCheck
  simp only [foldl_aggregateStep_Status]
  rw [any_fails_perm (sched.perm _), List.any_append, any_fails_sendAll_true]
  simp

theorem foldl_aggregateStep_Components (l : List state) (hs : HealthStatus) :
    (l.foldl aggregateStep hs).Components =
      l.foldl (fun m r => mapSet m r.name r.status) hs.Components := by
  induction l generalizing hs with
  | nil => rfl
  | cons r rest ih =>
    have h : (aggregateStep hs r).Components = mapSet hs.Components r.name r.status := by
      unfold aggregateStep
      split <;> rfl
    rw [List.foldl_cons, ih, h, List.foldl_cons]

theorem mapKeys_foldl_mapSet (l : List state) (m : GoMap ComponentStatus)
    (hnd : (l.map state.name).Nodup) (hdisj : ∀ r ∈ l, r.name ∉ mapKeys m) :
    mapKeys (l.foldl (fun m r => mapSet m r.name r.status) m) =
      mapKeys m ++ l.map state.name := by
  induction l generalizing m with
  | nil => simp
  | cons r rest ih =>
    rw [List.map_cons, List.nodup_cons] at hnd
    have hr : r.name ∉ mapKeys m := hdisj r (List.mem_cons_self _ _)
    have hk := mapKeys_mapSet_of_not_mem m r.name r.status hr
    rw [List.foldl_cons, ih _ hnd.2, hk]
    · simp
    · intro x hx hmem
      rw [hk, List.mem_append] at hmem
      rcases hmem with hmem | hmem
      · exact hdisj x (List.mem_cons_of_mem _ hx) hmem
      · rw [List.mem_singleton] at hmem
        exact hnd.1 (hmem ▸ List.mem_map_of_mem state.name hx)

theorem mapGet_foldl_mapSet_of_not_mem (l : List state) (m : GoMap ComponentStatus)
    (k : String) (h : k ∉ l.map state.name) :
    mapGet (l.foldl (fun m r => mapSet m r.name r.status) m) k = mapGet m k := by
  induction l generalizing m with
  | nil => rfl
  | cons r rest ih =>
    rw [List.map_cons, List.mem_cons, not_or] at h
    rw [List.foldl_cons, ih _ h.2, mapGet_mapSet]
    have : ¬ r.name = k := fun x => h.1 x.symm
    simp [this]

theorem mapGet_foldl_mapSet_of_mem (l : List state) (m : GoMap ComponentStatus)
    (r : state) (hnd : (l.map state.name).Nodup) (hr : r ∈ l) :
    mapGet (l.foldl (fun m r => mapSet m r.name r.status) m) r.name = some r.status := by
  induction l generalizing m with
  | nil => simp at hr
  | cons a rest ih =>
    rw [List.map_cons, List.nodup_cons] at hnd
    rw [List.foldl_cons]
    rcases List.mem_cons.mp hr with h | h
    · subst h
      rw [mapGet_foldl_mapSet_of_not_mem _ _ _ hnd.1, mapGet_mapSet]
      simp
    · exact ih _ hnd.2 h

theorem map_name_sendAll (m : GoMap Indicator) (b : Bool) :
    (sendAll m b).map state.name = mapKeys m := by
  simp [sendAll, mapKeys, List.map_map, Function.comp_def]

/-! ## Lemmas on `int64` arithmetic -/

theorem wrapInt64_two_mul_eq_zero (d : Int) (hd : isInt64 d) :
    wrapInt64 (2 * d) = 0 ↔ d = 0 ∨ d = -(2 ^ 63) := by
  unfold isInt64 at hd
  unfold wrapInt64
  omega

theorem wrapInt64_two_mul (d : Int) (h₁ : -(2 ^ 62) ≤ d) (h₂ : d < 2 ^ 62) :
    wrapInt64 (2 * d) = 2 * d := by
  unfold wrapInt64
  omega

theorem wrapInt64_two_mul_wraps (d : Int) (hd : isInt64 d) (h : 2 ^ 62 ≤ d) :
    wrapInt64 (2 * d) = 2 * d - 2 ^ 64 := by
  unfold isInt64 at hd
  unfold wrapInt64
  omega

theorem two_mul_pos_of_pos (d : Int) (h : 0 < d) : 0 < 2 * d := by
  omega

theorem two_mul_sub_neg (d : Int) (hd : isInt64 d) : 2 * d - 2 ^ 64 < 0 := by
  unfold isInt64 at hd
  omega

/-! ## Lemmas on `Health` -/

theorem counts_invokeAll (m : GoMap Indicator) :
    counts (invokeAll m) = (counts m).map fun e => (e.1, e.2 + 1) := by
  simp [counts, invokeAll, Indicator.Health, List.map_map, Function.comp_def]

theorem doHealthCheck_snd (c : CompositeHealthChecker) (sched : Scheduler) :
    (c.doHealthCheck sched).2 =
      { c with checkers := invokeAll c.checkers, observers := invokeAll c.observers } := rfl

theorem Health_of_ttl_zero (c : CompositeHealthChecker) (now₁ now₂ : Time) (sched : Scheduler)
    (h : c.cacheTTL = 0) : c.Health now₁ now₂ sched = c.doHealthCheck sched := by
  simp [CompositeHealthChecker.Health, CompositeHealthChecker.cacheable, h]

theorem Health_of_hit (c : CompositeHealthChecker) (now₁ now₂ : Time) (sched : Scheduler)
    (cached : HealthStatus) (httl : c.cacheTTL ≠ 0) (hres : c.cacheResult = some cached)
    (hvalid : now₁ < c.cacheValidTime) : c.Health now₁ now₂ sched = (cached, c) := by
  simp [CompositeHealthChecker.Health, CompositeHealthChecker.cacheable, httl, hres,
    Time.Before, hvalid]

theorem Health_of_miss (c : CompositeHealthChecker) (now₁ now₂ : Time) (sched : Scheduler)
    (httl : c.cacheTTL ≠ 0) (hmiss : c.cacheResult = none ∨ c.cacheValidTime ≤ now₁) :
    c.Health now₁ now₂ sched = ((c.doHealthCheck sched).1, c.refreshed now₂ sched) := by
  unfold CompositeHealthChecker.Health CompositeHealthChecker.refreshed
  have hc : c.cacheable = true := by simp [CompositeHealthChecker.cacheable, httl]
  simp only [hc, Bool.not_true, Bool.false_eq_true, if_false]
  cases hres : c.cacheResult with
  | none => rfl
  | some cached =>
    have hle : c.cacheValidTime ≤ now₁ := by
      rcases hmiss with h | h
      · rw [hres] at h; cases h
      · exact h
    have : Time.Before now₁ c.cacheValidTime = false := by
      simp [Time.Before, hle]
    simp [this]

theorem HealthCalls_of_hits (c : CompositeHealthChecker) (cached : HealthStatus)
    (calls : List (Time × Time × Scheduler)) (httl : c.cacheTTL ≠ 0)
    (hres : c.cacheResult = some cached) (hwin : ∀ call ∈ calls, call.1 < c.cacheValidTime) :
    c.HealthCalls calls = (List.replicate calls.length cached, c) := by
  induction calls with
  | nil => rfl
  | cons call rest ih =>
    obtain ⟨t₁, t₂, sch⟩ := call
    have h₁ : t₁ < c.cacheValidTime := hwin (t₁, t₂, sch) (List.mem_cons_self _ _)
    have hrest := ih (fun x hx => hwin x (List.mem_cons_of_mem _ hx))
    simp only [CompositeHealthChecker.HealthCalls, Health_of_hit c t₁ t₂ sch cached httl hres h₁,
      hrest, List.length_cons, List.replicate_succ]

/-! ## The aggregate verdict -/

/-- C1: the status returned by `doHealthCheck` is `DOWN` exactly when the result
of at least one checker has `IsUp() == false`, it is `UP` otherwise, and it is
never `Unknown`; this holds for every registry, every probe result and every
order of arrival of the results. -/
theorem doHealthCheck_down_iff (c : CompositeHealthChecker) (sched : Scheduler) :
    ((c.doHealthCheck sched).1.Status = down ↔
        ∃ e ∈ c.checkers, e.2.Health.1.IsUp = false) ∧
    ((¬ ∃ e ∈ c.checkers, e.2.Health.1.IsUp = false) →
        (c.doHealthCheck sched).1.Status = up) ∧
    (c.doHealthCheck sched).1.Status ≠ unknown := by
  rw [doHealthCheck_Status, ← any_fails_sendAll_false]
  by_cases h : (sendAll c.checkers false).any state.fails = true
  · simp only [h, if_true]
    exact ⟨by simp, by simp, by decide⟩
  · simp only [h]
    exact ⟨by decide, by simp, by decide⟩

/-- C2: with the checkers fixed, any two sets of observers (with any results,
and under any two orders of arrival) give the same aggregate status. -/
theorem doHealthCheck_observers_irrelevant (c : CompositeHealthChecker)
    (observers₁ observers₂ : GoMap Indicator) (sched₁ sched₂ : Scheduler) :
    (({ c with observers := observers₁ }).doHealthCheck sched₁).1.Status =
      (({ c with observers := observers₂ }).doHealthCheck sched₂).1.Status := by
  rw [doHealthCheck_Status, doHealthCheck_Status]

/-! ## The components of a run -/

/-- C3 (as stated) fails: with the name `db` registered both as a checker and as
an observer there are two probes but `Components` holds one entry, and the
result of the checker is not the value stored under its name. -/
theorem sharedName_Components_collide :
    (sharedNameRegistry.doHealthCheck Scheduler.fifo).1.Components.length ≠
        sharedNameRegistry.checkers.length + sharedNameRegistry.observers.length ∧
    mapGet (sharedNameRegistry.doHealthCheck Scheduler.fifo).1.Components "db" ≠
        some upIndicator.Health.1 ∧
    ("db", upIndicator) ∈ sharedNameRegistry.checkers := by
  refine ⟨by decide, by decide, ?_⟩
  simp [sharedNameRegistry, NewHealthChecker, CompositeHealthChecker.AddChecker,
    CompositeHealthChecker.AddObserver, mapSet]

/-- C3 (amended): when no name is registered both as a checker and as an
observer, `Components` has exactly one entry per registered probe: as many
entries as there are checkers and observers, its keys are the registered names,
and the value under the name of each probe is the result of that probe; the
empty registry yields status `UP` with no component. -/
theorem doHealthCheck_Components_disjoint (c : CompositeHealthChecker) (sched : Scheduler)
    (hc : mapWF c.checkers) (ho : mapWF c.observers)
    (hdisj : ∀ n ∈ mapKeys c.checkers, n ∉ mapKeys c.observers) :
    (c.doHealthCheck sched).1.Components.length = c.checkers.length + c.observers.length ∧
    (mapKeys (c.doHealthCheck sched).1.Components).Perm
        (mapKeys c.checkers ++ mapKeys c.observers) ∧
    (∀ e ∈ c.checkers, mapGet (c.doHealthCheck sched).1.Components e.1 = some e.2.Health.1) ∧
    (∀ e ∈ c.observers, mapGet (c.doHealthCheck sched).1.Components e.1 = some e.2.Health.1) ∧
    (c.checkers = [] → c.observers = [] →
      (c.doHealthCheck sched).1 = { Status := up, Components := [] }) := by
  have hperm := sched.perm (sendAll c.checkers false ++ sendAll c.observers true)
  have hnames : ((sendAll c.checkers false ++ sendAll c.observers true).map state.name) =
      mapKeys c.checkers ++ mapKeys c.observers := by
    rw [List.map_append, map_name_sendAll, map_name_sendAll]
  have hnd0 : (mapKeys c.checkers ++ mapKeys c.observers).Nodup :=
    List.Nodup.append hc ho (fun n h₁ h₂ => hdisj n h₁ h₂)
  have hpn := hperm.map state.name
  rw [hnames] at hpn
  have hnd : ((sched.run (sendAll c.checkers false ++ sendAll c.observers true)).map
      state.name).Nodup := hpn.nodup_iff.mpr hnd0
  have hcomp : (c.doHealthCheck sched).1.Components =
      (sched.run (sendAll c.checkers false ++ sendAll c.observers true)).foldl
        (fun m r => mapSet m r.name r.status) [] := by
    unfold CompositeHealthChecker.doHealthCheck
    simp only [foldl_aggregateStep_Components]
  have hkeys := mapKeys_foldl_mapSet _ [] hnd (by simp [mapKeys])
  rw [← hcomp] at hkeys
  simp only [mapKeys, List.map_nil, List.nil_append] at hkeys
  have hkp : (mapKeys (c.doHealthCheck sched).1.Components).Perm
      (mapKeys c.checkers ++ mapKeys c.observers) := by
    simp only [mapKeys]
    rw [hkeys]
    exact hpn
  refine ⟨?_, hkp, ?_, ?_, ?_⟩
  · have := hkp.length_eq
    simpa [mapKeys] using this
  · intro e he
    have hmem : ({ name := e.1, status := e.2.Health.1, observable := false } : state) ∈
        sched.run (sendAll c.checkers false ++ sendAll c.observers true) := by
      rw [hperm.mem_iff, List.mem_append]
      exact Or.inl (List.mem_map.mpr ⟨e, he, rfl⟩)
    rw [hcomp]
    exact mapGet_foldl_mapSet_of_mem _ [] _ hnd hmem
  · intro e he
    have hmem : ({ name := e.1, status := e.2.Health.1, observable := true } : state) ∈
        sched.run (sendAll c.checkers false ++ sendAll c.observers true) := by
      rw [hperm.mem_iff, List.mem_append]
      exact Or.inr (List.mem_map.mpr ⟨e, he, rfl⟩)
    rw [hcomp]
    exact mapGet_foldl_mapSet_of_mem _ [] _ hnd hmem
  · intro h₁ h₂
    have hnil : sched.run (sendAll c.checkers false ++ sendAll c.observers true) = [] := by
      apply List.Perm.eq_nil
      simpa [h₁, h₂, sendAll] using hperm
    unfold CompositeHealthChecker.doHealthCheck
    simp only [hnil, List.foldl_nil]

/-- C3 (amended), at the registry of the test `All Up Indicators with Down
observers`, with the results arriving in reverse order. -/
theorem doHealthCheck_Components_disjoint_witness :
    (mapWF testRegistry.checkers ∧ mapWF testRegistry.observers ∧
      ∀ n ∈ mapKeys testRegistry.checkers, n ∉ mapKeys testRegistry.observers) ∧
    (testRegistry.doHealthCheck Scheduler.lifo).1.Components.length = 4 :=
  ⟨⟨by decide, by decide, by decide⟩,
    (doHealthCheck_Components_disjoint testRegistry Scheduler.lifo (by decide) (by decide)
      (by decide)).1⟩

/-! ## The on-demand cache -/

/-- C4: with a time to live `T > 0` and an empty cache, a sequence of `N >= 1`
serialised `Health` calls whose freshness checks all happen strictly before the
expiry stored by the first call runs the aggregation once: every call returns
the result of the first call, which is the result of that run, and each probe
has been invoked exactly once; one more call at or after that expiry runs the
aggregation again, which makes two invocations per probe. -/
theorem HealthCalls_within_ttl (c : CompositeHealthChecker) (T : Duration) (hT : 0 < T)
    (hc : c.cacheTTL = T) (hempty : c.cacheResult = none)
    (now₁ now₂ : Time) (sched : Scheduler) (rest : List (Time × Time × Scheduler))
    (hwin : ∀ call ∈ rest, call.1 < (c.Health now₁ now₂ sched).2.cacheValidTime)
    (late₁ late₂ : Time) (lateSched : Scheduler)
    (hlate : (c.Health now₁ now₂ sched).2.cacheValidTime ≤ late₁) :
    (c.HealthCalls ((now₁, now₂, sched) :: rest)).1 =
        List.replicate (rest.length + 1) (c.Health now₁ now₂ sched).1 ∧
    (c.Health now₁ now₂ sched).1 = (c.doHealthCheck sched).1 ∧
    counts (c.HealthCalls ((now₁, now₂, sched) :: rest)).2.checkers =
        (counts c.checkers).map (fun e => (e.1, e.2 + 1)) ∧
    counts (c.HealthCalls ((now₁, now₂, sched) :: rest)).2.observers =
        (counts c.observers).map (fun e => (e.1, e.2 + 1)) ∧
    counts ((c.HealthCalls ((now₁, now₂, sched) :: rest)).2.Health late₁ late₂
        lateSched).2.checkers = (counts c.checkers).map (fun e => (e.1, e.2 + 2)) ∧
    counts ((c.HealthCalls ((now₁, now₂, sched) :: rest)).2.Health late₁ late₂
        lateSched).2.observers = (counts c.observers).map (fun e => (e.1, e.2 + 2)) := by
  have httl : c.cacheTTL ≠ 0 := by
    rw [hc]
    exact ne_of_gt hT
  have hfirst := Health_of_miss c now₁ now₂ sched httl (Or.inl hempty)
  rw [hfirst] at hwin hlate ⊢
  have httl' : (c.refreshed now₂ sched).cacheTTL ≠ 0 := httl
  have hcalls := HealthCalls_of_hits (c.refreshed now₂ sched) (c.doHealthCheck sched).1 rest
    httl' rfl hwin
  have hall : c.HealthCalls ((now₁, now₂, sched) :: rest) =
      (List.replicate (rest.length + 1) (c.doHealthCheck sched).1, c.refreshed now₂ sched) := by
    simp only [CompositeHealthChecker.HealthCalls, hfirst, hcalls, List.replicate_succ]
  have hlast := Health_of_miss (c.refreshed now₂ sched) late₁ late₂ lateSched httl'
    (Or.inr hlate)
  rw [hall, hlast]
  refine ⟨rfl, rfl, ?_, ?_, ?_, ?_⟩
  · exact counts_invokeAll c.checkers
  · exact counts_invokeAll c.observers
  · show counts (invokeAll (invokeAll c.checkers)) = _
    rw [counts_invokeAll, counts_invokeAll]
    simp [List.map_map, Function.comp_def, Nat.add_assoc]
  · show counts (invokeAll (invokeAll c.observers)) = _
    rw [counts_invokeAll, counts_invokeAll]
    simp [List.map_map, Function.comp_def, Nat.add_assoc]

/-- C4 at the scenario of `TestHealthChecker_Health_CacheTTL`: a time to live of
200ms, one up probe, ten calls within the window and one call after it. -/
theorem HealthCalls_within_ttl_witness :
    counts ((((NewHealthChecker [WithCacheTTL 200000000]).AddChecker "checker1"
        upIndicator).HealthCalls ((0, 1, Scheduler.fifo) ::
          List.replicate 9 (2, 3, Scheduler.fifo))).2.Health 200000001 200000002
        Scheduler.fifo).2.checkers = [("checker1", 2)] :=
  (HealthCalls_within_ttl
    ((NewHealthChecker [WithCacheTTL 200000000]).AddChecker "checker1" upIndicator)
    200000000 (by decide) rfl rfl 0 1 Scheduler.fifo (List.replicate 9 (2, 3, Scheduler.fifo))
    (by decide) 200000001 200000002 Scheduler.fifo (by decide)).2.2.2.2.1

/-- C5: with `cacheTTL != 0`, a cached result and a stored expiry strictly after
the current time, `Health` returns the cached status and leaves the checker as it
was: no probe is invoked (the invocation counts are those of before) and
`cacheResult` and `cacheValidTime` keep their values, whatever the registry
holds. -/
theorem Health_cache_hit (c : CompositeHealthChecker) (now₁ now₂ : Time) (sched : Scheduler)
    (cached : HealthStatus) (httl : c.cacheTTL ≠ 0) (hres : c.cacheResult = some cached)
    (hvalid : now₁ < c.cacheValidTime) :
    (c.Health now₁ now₂ sched).1 = cached ∧
    (c.Health now₁ now₂ sched).2 = c ∧
    counts (c.Health now₁ now₂ sched).2.checkers = counts c.checkers ∧
    counts (c.Health now₁ now₂ sched).2.observers = counts c.observers ∧
    (c.Health now₁ now₂ sched).2.cacheResult = c.cacheResult ∧
    (c.Health now₁ now₂ sched).2.cacheValidTime = c.cacheValidTime := by
  rw [Health_of_hit c now₁ now₂ sched cached httl hres hvalid]
  exact ⟨rfl, rfl, rfl, rfl, rfl, rfl⟩

/-- C5 at a checker whose cache holds a `DOWN` result valid until `100`, asked at
time `99`: the stale `DOWN` is returned although every checker is up. -/
theorem Health_cache_hit_witness :
    ((cachedChecker 200).cacheTTL ≠ 0 ∧ (99 : Time) < (cachedChecker 200).cacheValidTime) ∧
    ((cachedChecker 200).Health 99 99 Scheduler.fifo).1 =
      { Status := down, Components := [] } :=
  ⟨⟨by decide, by decide⟩,
    (Health_cache_hit (cachedChecker 200) 99 99 Scheduler.fifo _ (by decide) rfl
      (by decide)).1⟩

/-- C6 (as stated) fails: the freshness check and the store read the clock
separately. With the cache expiring at `100`, a call whose check reads `100`
(a miss, on the boundary) and whose aggregation ends at `150` stores the expiry
`150 + T`, not `100 + T`. -/
theorem expiry_counted_from_store :
    (cachedChecker 5).cacheValidTime ≤ (100 : Time) ∧
    ((cachedChecker 5).Health 100 150 Scheduler.fifo).2.cacheValidTime ≠
      Time.Add 100 (cachedChecker 5).cacheTTL := by
  decide

/-- C6 (amended): with `cacheTTL = T > 0`, if the cache is absent or the clock
reading `now₁` of the freshness check satisfies `now₁ >= expiry` (equality
included), `Health` runs one aggregation, returns its result, and afterwards
`cacheResult` is that result and `cacheValidTime` is `now₂ + T`, where `now₂` is
the clock reading taken after the aggregation. -/
theorem Health_cache_miss (c : CompositeHealthChecker) (T : Duration) (now₁ now₂ : Time)
    (sched : Scheduler) (hT : 0 < T) (hc : c.cacheTTL = T)
    (hmiss : c.cacheResult = none ∨ c.cacheValidTime ≤ now₁) :
    (c.Health now₁ now₂ sched).1 = (c.doHealthCheck sched).1 ∧
    (c.Health now₁ now₂ sched).2.cacheResult = some (c.doHealthCheck sched).1 ∧
    (c.Health now₁ now₂ sched).2.cacheValidTime = now₂ + T ∧
    (c.Health now₁ now₂ sched).2.checkers = invokeAll c.checkers ∧
    (c.Health now₁ now₂ sched).2.observers = invokeAll c.observers := by
  have httl : c.cacheTTL ≠ 0 := by
    rw [hc]
    exact ne_of_gt hT
  rw [Health_of_miss c now₁ now₂ sched httl hmiss]
  refine ⟨rfl, rfl, ?_, rfl, rfl⟩
  show Time.Add now₂ c.cacheTTL = now₂ + T
  rw [hc]
  rfl

/-- C6 (amended) on the boundary `now₁ = expiry = 100`: the checkers are up, so
the stale `DOWN` is replaced by `UP`, and the new expiry is `150 + 5`. -/
theorem Health_cache_miss_witness :
    ((0 : Duration) < 5 ∧ (cachedChecker 5).cacheValidTime ≤ (100 : Time)) ∧
    ((cachedChecker 5).Health 100 150 Scheduler.fifo).1.Status = up ∧
    ((cachedChecker 5).Health 100 150 Scheduler.fifo).2.cacheValidTime = 155 :=
  ⟨⟨by decide, by decide⟩,
    (congrArg HealthStatus.Status (Health_cache_miss (cachedChecker 5) 5 100 150
      Scheduler.fifo (by decide) rfl (Or.inr (by decide))).1).trans (by decide),
    (Health_cache_miss (cachedChecker 5) 5 100 150 Scheduler.fifo (by decide) rfl
      (Or.inr (by decide))).2.2.1⟩

/-- C7: with `cacheTTL == 0`, whatever the cache fields hold, `Health` is a fresh
run of `doHealthCheck` over the current registry: it returns the result of that
run, and `cacheResult` and `cacheValidTime` keep their values. -/
theorem Health_without_cache (c : CompositeHealthChecker) (now₁ now₂ : Time)
    (sched : Scheduler) (h : c.cacheTTL = 0) :
    (c.Health now₁ now₂ sched).1 = (c.doHealthCheck sched).1 ∧
    (c.Health now₁ now₂ sched).2.checkers = invokeAll c.checkers ∧
    (c.Health now₁ now₂ sched).2.observers = invokeAll c.observers ∧
    (c.Health now₁ now₂ sched).2.cacheResult = c.cacheResult ∧
    (c.Health now₁ now₂ sched).2.cacheValidTime = c.cacheValidTime := by
  rw [Health_of_ttl_zero c now₁ now₂ sched h]
  exact ⟨rfl, rfl, rfl, rfl, rfl⟩

/-- C7 at a checker with caching disabled whose cache fields hold an unexpired
`DOWN`: the call reports the fresh `UP` and the fields still hold the `DOWN`. -/
theorem Health_without_cache_witness :
    (cachedChecker 0).cacheTTL = 0 ∧
    ((cachedChecker 0).Health 99 99 Scheduler.fifo).1.Status = up ∧
    ((cachedChecker 0).Health 99 99 Scheduler.fifo).2.cacheResult =
      some { Status := down, Components := [] } :=
  ⟨rfl,
    (congrArg HealthStatus.Status
      (Health_without_cache (cachedChecker 0) 99 99 Scheduler.fifo rfl).1).trans (by decide),
    (Health_without_cache (cachedChecker 0) 99 99 Scheduler.fifo rfl).2.2.2.1⟩

/-! ## The background loop -/

/-- C8 (as stated) fails: a tick runs only when the clock is after `nextCheck`.
With an interval of 10ms, the tick at 10ms runs (its run ends 600ns later, so
`nextCheck` is 20ms + 600ns), and the tick at 20ms runs nothing: the probe has
been invoked once and the cache entry is still the one of the first run. -/
theorem second_tick_skipped :
    counts ((backgroundChecker.loopChecker LoopState.init
        (.tick 10000000 10000500 10000600 Scheduler.fifo)).1.loopChecker
      (backgroundChecker.loopChecker LoopState.init
        (.tick 10000000 10000500 10000600 Scheduler.fifo)).2
      (.tick 20000000 20000500 20000600 Scheduler.fifo)).1.checkers = [("checker1", 1)] ∧
    ((backgroundChecker.loopChecker LoopState.init
        (.tick 10000000 10000500 10000600 Scheduler.fifo)).1.loopChecker
      (backgroundChecker.loopChecker LoopState.init
        (.tick 10000000 10000500 10000600 Scheduler.fifo)).2
      (.tick 20000000 20000500 20000600 Scheduler.fifo)).1.cacheValidTime = 30000500 ∧
    ((backgroundChecker.loopChecker LoopState.init
        (.tick 10000000 10000500 10000600 Scheduler.fifo)).1.loopChecker
      (backgroundChecker.loopChecker LoopState.init
        (.tick 10000000 10000500 10000600 Scheduler.fifo)).2
      (.tick 20000000 20000500 20000600 Scheduler.fifo)).2.nextCheck = 20000600 := by
  decide

/-- C8 (amended): on a tick of the running loop with a non-empty registry, if
the clock reading `now₁` of the tick is strictly after `nextCheck`, the loop
runs an aggregation and replaces the cache entry by its result with expiry
`now₂ + cacheTTL` (`now₂` read after the run), whatever the cache held and
whether or not it had expired, and sets `nextCheck` to `now₃ +
backgroundInterval` (`now₃` read after the store); if `now₁` is not after
`nextCheck` the tick runs nothing and changes nothing. -/
theorem loopChecker_tick_after_nextCheck (c : CompositeHealthChecker) (l : LoopState)
    (now₁ now₂ now₃ : Time) (sched : Scheduler) (hrun : l.returned = false)
    (hne : c.checkers.length + c.observers.length ≠ 0) :
    (l.nextCheck < now₁ →
      (c.loopChecker l (.tick now₁ now₂ now₃ sched)).1.cacheResult =
          some (c.doHealthCheck sched).1 ∧
      (c.loopChecker l (.tick now₁ now₂ now₃ sched)).1.cacheValidTime = now₂ + c.cacheTTL ∧
      (c.loopChecker l (.tick now₁ now₂ now₃ sched)).1.checkers = invokeAll c.checkers ∧
      (c.loopChecker l (.tick now₁ now₂ now₃ sched)).1.observers = invokeAll c.observers ∧
      (c.loopChecker l (.tick now₁ now₂ now₃ sched)).2 =
          { nextCheck := now₃ + c.backgroundInterval, returned := false }) ∧
    (now₁ ≤ l.nextCheck → c.loopChecker l (.tick now₁ now₂ now₃ sched) = (c, l)) := by
  have hne' : (c.checkers.length + c.observers.length == 0) = false := by
    simpa using hne
  constructor
  · intro h
    have ha : Time.After now₁ l.nextCheck = true := by simp [Time.After, h]
    have hstep : c.loopChecker l (.tick now₁ now₂ now₃ sched) =
        (c.refreshed now₂ sched, { l with nextCheck := Time.Add now₃ c.backgroundInterval }) := by
      simp only [CompositeHealthChecker.loopChecker, hrun, ha, hne', Bool.false_eq_true,
        if_false, if_true]
      rfl
    rw [hstep]
    refine ⟨rfl, rfl, rfl, rfl, ?_⟩
    obtain ⟨n, r⟩ := l
    simp only at hrun
    subst hrun
    rfl
  · intro h
    have ha : Time.After now₁ l.nextCheck = false := by
      simp [Time.After, h]
    simp only [CompositeHealthChecker.loopChecker, hrun, ha, Bool.false_eq_true, if_false]

/-- C8 (amended) at the first tick of `backgroundChecker`, whose cache entry is
replaced with expiry `10000500 + 2 * 10000000`. -/
theorem loopChecker_tick_after_nextCheck_witness :
    (LoopState.init.returned = false ∧
      backgroundChecker.checkers.length + backgroundChecker.observers.length ≠ 0 ∧
      LoopState.init.nextCheck < (10000000 : Time)) ∧
    (backgroundChecker.loopChecker LoopState.init
      (.tick 10000000 10000500 10000600 Scheduler.fifo)).1.cacheValidTime = 30000500 :=
  ⟨⟨rfl, by decide, by decide⟩,
    ((loopChecker_tick_after_nextCheck backgroundChecker LoopState.init 10000000 10000500 10000600
      Scheduler.fifo rfl (by decide)).1 (by decide)).2.1⟩

/-- C10: a tick that finds the registry empty leaves the checker (so its
`cacheResult` and `cacheValidTime`) and the state of the loop (its `nextCheck`)
as they were, and the loop has not returned; there is no probe to invoke. -/
theorem loopChecker_empty_registry (c : CompositeHealthChecker) (l : LoopState)
    (now₁ now₂ now₃ : Time) (sched : Scheduler)
    (hempty : c.checkers.length + c.observers.length = 0) :
    c.loopChecker l (.tick now₁ now₂ now₃ sched) = (c, l) ∧
    (c.loopChecker l (.tick now₁ now₂ now₃ sched)).1.cacheResult = c.cacheResult ∧
    (c.loopChecker l (.tick now₁ now₂ now₃ sched)).1.cacheValidTime = c.cacheValidTime ∧
    (c.loopChecker l (.tick now₁ now₂ now₃ sched)).2.nextCheck = l.nextCheck ∧
    (c.loopChecker l (.tick now₁ now₂ now₃ sched)).2.returned = l.returned ∧
    c.checkers = [] ∧ c.observers = [] := by
  have h : c.loopChecker l (.tick now₁ now₂ now₃ sched) = (c, l) := by
    simp only [CompositeHealthChecker.loopChecker, hempty, beq_self_eq_true, if_true]
    split
    · rfl
    · split <;> rfl
  rw [h]
  refine ⟨rfl, rfl, rfl, rfl, rfl, ?_, ?_⟩
  · exact List.eq_nil_of_length_eq_zero (by omega)
  · exact List.eq_nil_of_length_eq_zero (by omega)

/-- C10 at the first tick of a checker built with `WithBackground` on which no
probe has been registered yet. -/
theorem loopChecker_empty_registry_witness :
    ((NewHealthChecker [WithBackground 10000000]).loopChecker LoopState.init
      (.tick 10000000 10000500 10000600 Scheduler.fifo)).2 =
      { nextCheck := 0, returned := false } :=
  congrArg Prod.snd (loopChecker_empty_registry (NewHealthChecker [WithBackground 10000000])
    LoopState.init 10000000 10000500 10000600 Scheduler.fifo rfl).1

/-! ## Options -/

/-- C9: for every interval `d`, `NewHealthChecker(WithBackground(d))` sets
`background == true`, `backgroundInterval == d` and `cacheTTL == 2 * d` in 64-bit
arithmetic, and starts the goroutine `loopChecker`. For `d <= 0` that goroutine
panics in `time.NewTicker` and the program ends. For every `d > 0` the loop runs
and `cacheTTL` is not zero, so `Health` on this checker, whatever is registered
on it, goes through the cache: a call that finds no cached result stores its
result with the expiry `now₂ + cacheTTL`, and a call made before the stored
expiry returns the cached result. The TTL is `2 * d > 0` for `d < 2^62`; for
`d >= 2^62` the product wraps around to `2 * d - 2^64 < 0`. -/
theorem NewHealthChecker_WithBackground (d : Duration) (hd : isInt64 d) :
    (NewHealthChecker [WithBackground d]).background = true ∧
    (NewHealthChecker [WithBackground d]).backgroundInterval = d ∧
    (NewHealthChecker [WithBackground d]).cacheTTL = wrapInt64 (2 * d) ∧
    (d ≤ 0 → (NewHealthChecker [WithBackground d]).startBackground =
      some (.error "non-positive interval for NewTicker")) ∧
    (0 < d → (NewHealthChecker [WithBackground d]).startBackground =
      some (.ok LoopState.init)) ∧
    (0 < d → (NewHealthChecker [WithBackground d]).cacheTTL ≠ 0 ∧
      (NewHealthChecker [WithBackground d]).cacheable = true) ∧
    (0 < d → ∀ (c : CompositeHealthChecker) (now₁ now₂ : Time) (sched : Scheduler),
      c.cacheTTL = (NewHealthChecker [WithBackground d]).cacheTTL →
      (c.cacheResult = none →
        (c.Health now₁ now₂ sched).1 = (c.doHealthCheck sched).1 ∧
        (c.Health now₁ now₂ sched).2.cacheResult = some (c.doHealthCheck sched).1 ∧
        (c.Health now₁ now₂ sched).2.cacheValidTime = now₂ + wrapInt64 (2 * d)) ∧
      (∀ cached, c.cacheResult = some cached → now₁ < c.cacheValidTime →
        c.Health now₁ now₂ sched = (cached, c))) ∧
    (0 < d → d < 2 ^ 62 → (NewHealthChecker [WithBackground d]).cacheTTL = 2 * d ∧
      0 < (NewHealthChecker [WithBackground d]).cacheTTL) ∧
    (2 ^ 62 ≤ d → (NewHealthChecker [WithBackground d]).cacheTTL = 2 * d - 2 ^ 64 ∧
      (NewHealthChecker [WithBackground d]).cacheTTL < 0) := by
  have httl : (NewHealthChecker [WithBackground d]).cacheTTL = wrapInt64 (2 * d) := rfl
  have hint : (NewHealthChecker [WithBackground d]).backgroundInterval = d := rfl
  have hbg : (NewHealthChecker [WithBackground d]).background = true := rfl
  have hne : 0 < d → wrapInt64 (2 * d) ≠ 0 := by
    intro hpos h0
    rcases (wrapInt64_two_mul_eq_zero d hd).mp h0 with h | h
    · exact absurd h (ne_of_gt hpos)
    · rw [h] at hpos
      exact absurd hpos (by decide)
  refine ⟨hbg, hint, httl, ?_, ?_, ?_, ?_, ?_, ?_⟩
  · intro hle
    simp only [CompositeHealthChecker.startBackground, hbg, if_true,
      CompositeHealthChecker.loopCheckerStart, hint, NewTicker, hle]
  · intro hpos
    have hnle : ¬ d ≤ 0 := not_le.mpr hpos
    simp only [CompositeHealthChecker.startBackground, hbg, if_true,
      CompositeHealthChecker.loopCheckerStart, hint, NewTicker, hnle, if_false]
  · intro hpos
    rw [httl]
    refine ⟨hne hpos, ?_⟩
    simp only [CompositeHealthChecker.cacheable, httl, bne_iff_ne, ne_eq]
    exact hne hpos
  · intro hpos c now₁ now₂ sched hc
    rw [httl] at hc
    have hcne : c.cacheTTL ≠ 0 := by
      rw [hc]
      exact hne hpos
    constructor
    · intro hnone
      rw [Health_of_miss c now₁ now₂ sched hcne (Or.inl hnone)]
      refine ⟨rfl, rfl, ?_⟩
      show Time.Add now₂ c.cacheTTL = now₂ + wrapInt64 (2 * d)
      rw [hc]
      rfl
    · intro cached hres hvalid
      exact Health_of_hit c now₁ now₂ sched cached hcne hres hvalid
  · intro hpos hlt
    rw [httl, wrapInt64_two_mul d (le_trans (by decide) (le_of_lt hpos)) hlt]
    exact ⟨rfl, two_mul_pos_of_pos d hpos⟩
  · intro hge
    rw [httl, wrapInt64_two_mul_wraps d hd hge]
    exact ⟨rfl, two_mul_sub_neg d hd⟩

/-- C9 at the interval of 10ms of `TestHealthChecker_Health_Background`: the
loop starts, the TTL is 20ms, and the first `Health` call on the checker with
its probe stores its result. -/
theorem NewHealthChecker_WithBackground_witness :
    isInt64 10000000 ∧
    (NewHealthChecker [WithBackground 10000000]).cacheTTL = 20000000 ∧
    (NewHealthChecker [WithBackground 10000000]).startBackground =
      some (.ok LoopState.init) ∧
    (backgroundChecker.Health 1 2 Scheduler.fifo).2.cacheResult =
      some (backgroundChecker.doHealthCheck Scheduler.fifo).1 :=
  ⟨by decide,
    (NewHealthChecker_WithBackground 10000000 (by decide)).2.2.1,
    (NewHealthChecker_WithBackground 10000000 (by decide)).2.2.2.2.1 (by decide),
    (((NewHealthChecker_WithBackground 10000000 (by decide)).2.2.2.2.2.2.1 (by decide)
      backgroundChecker 1 2 Scheduler.fifo rfl).1 rfl).2.1⟩

/-! ## Probes that panic -/

theorem sentBy_liftProbes (m : GoMap Indicator) (observable : Bool) :
    sentBy (liftProbes m) observable = sendAll m observable := by
  induction m with
  | nil => rfl
  | cons e rest ih =>
    have hstep : sentBy (liftProbes (e :: rest)) observable =
        { name := e.1, status := e.2.Health.1, observable := observable } ::
          sentBy (liftProbes rest) observable := rfl
    rw [hstep, ih]
    rfl

theorem panicsOf_liftProbes (m : GoMap Indicator) : panicsOf (liftProbes m) = [] := by
  induction m with
  | nil => rfl
  | cons e rest ih =>
    have hstep : panicsOf (liftProbes (e :: rest)) = panicsOf (liftProbes rest) := rfl
    rw [hstep, ih]

theorem panicsOf_eq_nil_iff (m : GoMap Probe) :
    panicsOf m = [] ↔ ∀ e ∈ m, ∃ s, e.2.Health = .ok s := by
  induction m with
  | nil => simp [panicsOf]
  | cons e rest ih =>
    obtain ⟨name, p⟩ := e
    cases hp : p.Health with
    | error v => simp [panicsOf, hp]
    | ok s => simp [panicsOf, hp, ih]

theorem sentBy_returning (m : GoMap Probe) (observable : Bool) :
    sentBy (returning m) observable = sentBy m observable := by
  induction m with
  | nil => rfl
  | cons e rest ih =>
    obtain ⟨name, p⟩ := e
    unfold returning at ih ⊢
    cases hp : p.Health with
    | error v => simp [List.filter, sentBy, hp, ih]
    | ok s => simp [List.filter, sentBy, hp, ih]

theorem panicsOf_returning (m : GoMap Probe) : panicsOf (returning m) = [] := by
  induction m with
  | nil => rfl
  | cons e rest ih =>
    obtain ⟨name, p⟩ := e
    unfold returning at ih ⊢
    cases hp : p.Health with
    | error v => simp [List.filter, hp, ih]
    | ok s => simp [List.filter, panicsOf, hp, ih]

/-- C11 (as stated) fails: with an up checker and a probe that panics, as a
checker or as an observer, the panic is raised unrecovered in every run and ends
the program; in the runs in which the program ends before `doHealthCheck` has
returned there is no `HealthStatus`, and in the others the status returned is
the one of the up checker alone. -/
theorem panic_is_not_isolated :
    (doHealthCheckOrPanic [("ok", upProbe), ("bad", panicProbe)] [] Scheduler.fifo
      false).returned = none ∧
    (doHealthCheckOrPanic [("ok", upProbe), ("bad", panicProbe)] [] Scheduler.fifo
      false).panics = ["boom"] ∧
    (doHealthCheckOrPanic [("ok", upProbe), ("bad", panicProbe)] [] Scheduler.fifo
      true).returned = some { Status := up, Components := [("ok", NewComponentStatus.WithUp)] } ∧
    (doHealthCheckOrPanic [("ok", upProbe), ("bad", panicProbe)] [] Scheduler.fifo
      true).panics = ["boom"] ∧
    (doHealthCheckOrPanic [("ok", upProbe)] [("bad", panicProbe)] Scheduler.fifo
      false).returned = none ∧
    (doHealthCheckOrPanic [("ok", upProbe)] [("bad", panicProbe)] Scheduler.fifo
      true).panics = ["boom"] := by
  decide

/-- C11 (amended): when every probe of the registry returns, no panic is raised
and `doHealthCheck` returns the status of the run over their results. When a
probe panics, nothing recovers the panic, which ends the program: the call
returns no status if the program ends first, and otherwise it returns the
status of the run over the other probes alone, the panicking probe having no
message in it. -/
theorem doHealthCheckOrPanic_returns (checkers observers : GoMap Probe) (sched : Scheduler) :
    ((∀ e ∈ checkers ++ observers, ∃ s, e.2.Health = .ok s) →
      ∃ hs, ∀ b, (doHealthCheckOrPanic checkers observers sched b).panics = [] ∧
        (doHealthCheckOrPanic checkers observers sched b).returned = some hs) ∧
    (∀ (c : CompositeHealthChecker) (b : Bool),
      (doHealthCheckOrPanic (liftProbes c.checkers) (liftProbes c.observers) sched b).panics
        = [] ∧
      (doHealthCheckOrPanic (liftProbes c.checkers) (liftProbes c.observers) sched b).returned
        = some (c.doHealthCheck sched).1) ∧
    ((∃ e ∈ checkers ++ observers, ∃ v, e.2.Health = .error v) →
      (∀ b, (doHealthCheckOrPanic checkers observers sched b).panics ≠ []) ∧
      (doHealthCheckOrPanic checkers observers sched false).returned = none ∧
      (doHealthCheckOrPanic checkers observers sched true).returned =
        (doHealthCheckOrPanic (returning checkers) (returning observers) sched true).returned ∧
      (doHealthCheckOrPanic (returning checkers) (returning observers) sched true).panics
        = []) := by
  have hnil : panicsOf checkers ++ panicsOf observers = [] ↔
      ∀ e ∈ checkers ++ observers, ∃ s, e.2.Health = .ok s := by
    rw [List.append_eq_nil, panicsOf_eq_nil_iff, panicsOf_eq_nil_iff]
    constructor
    · rintro ⟨h₁, h₂⟩ e he
      rcases List.mem_append.mp he with he | he
      · exact h₁ e he
      · exact h₂ e he
    · intro h
      exact ⟨fun e he => h e (List.mem_append.mpr (Or.inl he)),
        fun e he => h e (List.mem_append.mpr (Or.inr he))⟩
  refine ⟨?_, ?_, ?_⟩
  · intro h
    have hp := hnil.mpr h
    refine ⟨(sched.run (sentBy checkers false ++ sentBy observers true)).foldl aggregateStep
      { Status := up, Components := [] }, fun b => ?_⟩
    simp [doHealthCheckOrPanic, hp]
  · intro c b
    simp only [doHealthCheckOrPanic, panicsOf_liftProbes, sentBy_liftProbes]
    exact ⟨rfl, rfl⟩
  · rintro ⟨e, he, v, hv⟩
    have hp : panicsOf checkers ++ panicsOf observers ≠ [] := by
      intro hp
      obtain ⟨s, hs⟩ := hnil.mp hp e he
      rw [hs] at hv
      cases hv
    have hne : (panicsOf checkers ++ panicsOf observers).isEmpty = false := by
      cases hl : panicsOf checkers ++ panicsOf observers with
      | nil => exact absurd hl hp
      | cons x xs => rfl
    refine ⟨fun b => hp, ?_, ?_, ?_⟩
    · simp [doHealthCheckOrPanic, hne]
    · simp [doHealthCheckOrPanic, sentBy_returning, panicsOf_returning]
    · simp [doHealthCheckOrPanic, panicsOf_returning]

/-! ## Order-independence of the verdict -/

/-- C12: the status computed by the fold of `doHealthCheck` is the same for any
two orders of the same results, whether the order is that of the arrivals on
`resultCh` or that of the registrations. -/
theorem aggregate_Status_perm (l₁ l₂ : List state) (hs : HealthStatus) (h : l₁.Perm l₂) :
    (l₁.foldl aggregateStep hs).Status = (l₂.foldl aggregateStep hs).Status ∧
    (∀ (c₁ c₂ : CompositeHealthChecker) (sched₁ sched₂ : Scheduler),
      c₁.checkers.Perm c₂.checkers → c₁.observers.Perm c₂.observers →
      (c₁.doHealthCheck sched₁).1.Status = (c₂.doHealthCheck sched₂).1.Status) := by
  constructor
  · rw [foldl_aggregateStep_Status, foldl_aggregateStep_Status, any_fails_perm h]
  · intro c₁ c₂ sched₁ sched₂ hc _
    rw [doHealthCheck_Status, doHealthCheck_Status]
    have : (sendAll c₁.checkers false).Perm (sendAll c₂.checkers false) := hc.map _
    rw [any_fails_perm this]

/-- C12 on an up and a down checker, in the two orders: `DOWN` both times. -/
theorem aggregate_Status_perm_witness :
    upThenDown.Perm upThenDown.reverse ∧
    (upThenDown.foldl aggregateStep { Status := up, Components := [] }).Status =
      (upThenDown.reverse.foldl aggregateStep { Status := up, Components := [] }).Status :=
  ⟨(List.reverse_perm upThenDown).symm,
    (aggregate_Status_perm upThenDown upThenDown.reverse { Status := up, Components := [] }
      (List.reverse_perm upThenDown).symm).1⟩

/-! ## The URL probe -/

/-- C13: whatever the HTTP exchange does, a URL probe reports it as a status: if
the request cannot be built, or if the call returns an error, the result is
`DOWN`, `details["err"]` is the error message and there is no `status` detail;
if a response is received, `details["status"]` is its code, there is no `err`
detail, and the result is `UP` exactly when the code is 200 and `DOWN` for every
other code. -/
theorem UrlIndicator_Health_outcome (u : UrlIndicator) (deadline : Option Time) (now : Time)
    (w : HttpWorld) :
    (∀ msg, w.NewRequest u.Method u.Url = .error msg →
      (u.Health deadline now w).status = down ∧
      mapGet (u.Health deadline now w).details "err" = some (.str msg) ∧
      mapGet (u.Health deadline now w).details "status" = none) ∧
    (∀ req msg, w.NewRequest u.Method u.Url = .ok req →
      w.Do (u.clientTimeout deadline now) (addHeaders u.Headers req) = .error msg →
      (u.Health deadline now w).status = down ∧
      mapGet (u.Health deadline now w).details "err" = some (.str msg) ∧
      mapGet (u.Health deadline now w).details "status" = none) ∧
    (∀ req code, w.NewRequest u.Method u.Url = .ok req →
      w.Do (u.clientTimeout deadline now) (addHeaders u.Headers req) = .ok code →
      mapGet (u.Health deadline now w).details "status" = some (.int code) ∧
      mapGet (u.Health deadline now w).details "err" = none ∧
      ((u.Health deadline now w).IsUp = true ↔ code = 200) ∧
      (code ≠ 200 → (u.Health deadline now w).status = down)) := by
  have hne : ¬ ("err" = "status") := by decide
  have hne' : ¬ ("status" = "err") := by decide
  have hdu : ¬ (down = up) := by decide
  refine ⟨?_, ?_, ?_⟩
  · intro msg h
    simp [UrlIndicator.Health, h, ComponentStatus.WithDetail, ComponentStatus.WithDown,
      NewComponentStatus, mapSet, mapGet, hne]
  · intro req msg h₁ h₂
    simp [UrlIndicator.Health, h₁, h₂, ComponentStatus.WithDetail, ComponentStatus.WithDown,
      NewComponentStatus, mapSet, mapGet, hne]
  · intro req code h₁ h₂
    by_cases hc : code = 200
    · simp [UrlIndicator.Health, h₁, h₂, hc, ComponentStatus.WithDetail, ComponentStatus.WithUp,
        ComponentStatus.IsUp, NewComponentStatus, mapSet, mapGet, hne']
    · simp [UrlIndicator.Health, h₁, h₂, hc, ComponentStatus.WithDetail,
        ComponentStatus.WithDown, ComponentStatus.IsUp, NewComponentStatus, mapSet, mapGet,
        hne', hdu]

/-- C13 on a world that answers 500: `DOWN` with the code as `status` detail. -/
theorem UrlIndicator_Health_outcome_witness :
    mapGet ((NewUrlIndicator "indicator" "GET" "http://127.0.0.1/health"
      [("key1", ["value1"])] 1000000000).Health none 0 (answering 500)).details "status" =
      some (.int 500) :=
  ((UrlIndicator_Health_outcome (NewUrlIndicator "indicator" "GET" "http://127.0.0.1/health"
    [("key1", ["value1"])] 1000000000) none 0 (answering 500)).2.2 _ 500 rfl rfl).1

/-! ## The database probe -/

/-- C14: for a database probe with a connection, if the validation step fails
the result is `DOWN`, `details["err"]` is the error message and
`details["database"]` the driver name; if it succeeds the result is `UP`
whatever the version query does, and the error of a failing version query is
recorded as `details["version"]`. -/
theorem database_Health_outcome (i : database.Indicator) (db : database.DB)
    (hdb : i.db = some db) :
    (∀ msg, i.validation db = .error msg →
      i.Health.status = down ∧
      mapGet i.Health.details "err" = some (.str msg) ∧
      mapGet i.Health.details "database" = some (.str i.driverName)) ∧
    (i.validation db = .ok () →
      i.Health.status = up ∧ i.Health.IsUp = true ∧
      mapGet i.Health.details "err" = none ∧
      mapGet i.Health.details "database" = some (.str i.driverName) ∧
      (∀ msg, i.versionQuery ≠ "" → db.QueryRowScan 1 i.versionQuery = .error msg →
        mapGet i.Health.details "version" = some (.str msg))) := by
  have h₁ : ¬ ("database" = "validationQuery") := by decide
  have h₂ : ¬ ("database" = "err") := by decide
  have h₃ : ¬ ("validationQuery" = "err") := by decide
  have h₈ : ¬ ("validationQuery" = "database") := by decide
  constructor
  · intro msg hv
    unfold database.Indicator.validation at hv
    by_cases hq : (i.validatorQuery != "") = true
    · rw [if_pos hq] at hv
      cases hr : db.QueryRowScan 0 i.validatorQuery with
      | ok v => rw [hr] at hv; cases hv
      | error e =>
        rw [hr] at hv
        have he : e = msg := by
          simpa [Except.map] using hv
        subst he
        simp [database.Indicator.Health, hdb, hq, hr, Except.map, ComponentStatus.WithDetail,
          ComponentStatus.WithDown, NewComponentStatus, mapGet_mapSet, mapGet, h₁, h₂, h₃, h₈]
    · rw [if_neg hq] at hv
      simp [database.Indicator.Health, hdb, hq, hv, ComponentStatus.WithDetail,
        ComponentStatus.WithDown, NewComponentStatus, mapGet_mapSet, mapGet, h₁, h₂, h₃, h₈]
  · intro hv
    unfold database.Indicator.validation at hv
    by_cases hq : (i.validatorQuery != "") = true <;>
    by_cases hver : (i.versionQuery != "") = true <;>
    cases hr : db.QueryRowScan 1 i.versionQuery <;>
    simp_all [database.Indicator.Health, ComponentStatus.WithDetail, ComponentStatus.WithUp,
      ComponentStatus.IsUp, NewComponentStatus, mapGet_mapSet, mapGet]

/-- C14 on the mock of the test `MySQL-Indicator Up with version query fail`:
the probe is up and the error of the version query is the `version` detail. -/
theorem database_Health_outcome_witness :
    (database.NewMySQLIndicator (some database.versionFailsDB)).Health.status = up ∧
    mapGet (database.NewMySQLIndicator (some database.versionFailsDB)).Health.details
      "version" = some (.str "force error") :=
  ⟨((database_Health_outcome (database.NewMySQLIndicator (some database.versionFailsDB))
      database.versionFailsDB rfl).2 rfl).1,
    ((database_Health_outcome (database.NewMySQLIndicator (some database.versionFailsDB))
      database.versionFailsDB rfl).2 rfl).2.2.2.2 "force error" (by decide) rfl⟩

/-! ## Serialisation -/

theorem mapSet_of_not_mem {α : Type} (m : GoMap α) (k : String) (v : α)
    (h : k ∉ mapKeys m) : mapSet m k v = m ++ [(k, v)] := by
  induction m with
  | nil => rfl
  | cons e rest ih =>
    obtain ⟨a, b⟩ := e
    have ha : ¬ a = k := by
      intro x; apply h; simp [mapKeys, x]
    have hr : k ∉ mapKeys rest := by
      intro x; apply h; simp only [mapKeys] at x; simp [mapKeys, x]
    simp [mapSet, ha, ih hr]

theorem foldl_mapSet_of_wf {α : Type} (l m : GoMap α) (hnd : mapWF l)
    (hdisj : ∀ k ∈ mapKeys l, k ∉ mapKeys m) :
    l.foldl (fun m e => mapSet m e.1 e.2) m = m ++ l := by
  induction l generalizing m with
  | nil => simp
  | cons e rest ih =>
    obtain ⟨k, v⟩ := e
    unfold mapWF at hnd
    simp only [mapKeys, List.map_cons, List.nodup_cons] at hnd
    have hk : k ∉ mapKeys m := hdisj k (by simp [mapKeys])
    rw [List.foldl_cons, mapSet_of_not_mem m k v hk, ih _ hnd.2]
    · simp
    · intro x hx hmem
      simp only [mapKeys, List.map_append, List.map_cons, List.map_nil, List.mem_append,
        List.mem_singleton] at hmem
      rcases hmem with hmem | hmem
      · exact hdisj x (by simp only [mapKeys] at hx; simp [mapKeys, hx]) hmem
      · subst hmem
        exact hnd.1 (by simpa [mapKeys] using hx)

theorem mapGet_map {α β : Type} (m : GoMap α) (f : α → β) (k : String) :
    mapGet (m.map fun e => (e.1, f e.2)) k = (mapGet m k).map f := by
  induction m with
  | nil => rfl
  | cons e rest ih =>
    obtain ⟨a, b⟩ := e
    by_cases h : a = k
    · simp [mapGet, h]
    · simp only [List.map_cons, mapGet, h, if_false]
      exact ih

theorem unmarshalComponents_marshal (cs m : GoMap ComponentStatus) :
    unmarshalComponents (cs.map fun e => (e.1, e.2.MarshalJSON)) m =
      .ok ((cs.map fun e => (e.1, zeroComponentStatus)).foldl
        (fun m e => mapSet m e.1 e.2) m) := by
  induction cs generalizing m with
  | nil => rfl
  | cons e rest ih =>
    have hstep : unmarshalComponents ((e :: rest).map fun e => (e.1, e.2.MarshalJSON)) m =
        unmarshalComponents (rest.map fun e => (e.1, e.2.MarshalJSON))
          (mapSet m e.1 zeroComponentStatus) := rfl
    rw [hstep, ih]
    rfl

/-- C15 (as stated) fails: a status with one component `db` that is `UP` with a
`database` detail is read back with the component `db` in the zero state: its
status is empty and its details are gone. -/
theorem roundtrip_loses_components :
    HealthStatus.Unmarshal sampleHealthStatus.Marshal =
      .ok { Status := up, Components := [("db", zeroComponentStatus)] } ∧
    mapGet sampleHealthStatus.Components "db" =
      some { status := up, details := [("database", .str "mysql")] } ∧
    zeroComponentStatus.status ≠ up ∧
    mapGet zeroComponentStatus.details "database" = none :=
  ⟨rfl, rfl, by decide, rfl⟩

/-- C15 (amended): serialising a `HealthStatus` writes the aggregate status and,
for every component, its status and every key and value of its details, and
distinct detail values are written differently; deserialising the output back
into a `HealthStatus` gives the same aggregate status and the same component
names, each with the zero `ComponentStatus`. -/
theorem Marshal_then_Unmarshal (hs : HealthStatus) (hwf : mapWF hs.Components) :
    HealthStatus.Unmarshal hs.Marshal =
      .ok { Status := hs.Status
            Components := hs.Components.map fun e => (e.1, zeroComponentStatus) } ∧
    hs.Marshal.get "status" = some (.str hs.Status) ∧
    (∀ name cs, mapGet hs.Components name = some cs →
      (hs.Marshal.get "components").bind (fun j => j.get name) = some cs.MarshalJSON ∧
      cs.MarshalJSON.get "status" = some (.str cs.status) ∧
      ∀ key v, mapGet cs.details key = some v →
        (cs.MarshalJSON.get "details").bind (fun j => j.get key) = some v.toJson) ∧
    (∀ v w : Detail, v.toJson = w.toJson → v = w) := by
  have hsc : ¬ ("status" = "components") := by decide
  have hsd : ¬ ("status" = "details") := by decide
  refine ⟨?_, ?_, ?_, ?_⟩
  · have hwf' : mapWF (hs.Components.map fun e => (e.1, zeroComponentStatus)) := by
      unfold mapWF mapKeys at hwf ⊢
      simpa [List.map_map, Function.comp_def] using hwf
    have hfold := foldl_mapSet_of_wf _ [] hwf' (by simp [mapKeys])
    simp only [HealthStatus.Marshal, HealthStatus.Unmarshal, mapGet, hsc, if_false, if_true,
      unmarshalComponents_marshal, hfold, List.nil_append]
  · simp [HealthStatus.Marshal, Json.get, mapGet]
  · intro name cs hcs
    refine ⟨?_, ?_, ?_⟩
    · simp [HealthStatus.Marshal, Json.get, mapGet, hsc, mapGet_map, hcs]
    · simp [ComponentStatus.MarshalJSON, Json.get, mapSet, mapGet]
    · intro key v hv
      simp [ComponentStatus.MarshalJSON, Json.get, mapSet, mapGet, hsd, mapGet_map, hv]
  · intro v w h
    cases v <;> cases w <;> simp_all [Detail.toJson]

/-- C15 (amended) on a status with the one component `db`. -/
theorem Marshal_then_Unmarshal_witness :
    mapWF sampleHealthStatus.Components ∧
    HealthStatus.Unmarshal sampleHealthStatus.Marshal =
      .ok { Status := sampleHealthStatus.Status
            Components := sampleHealthStatus.Components.map fun e =>
              (e.1, zeroComponentStatus) } :=
  ⟨by decide, (Marshal_then_Unmarshal sampleHealthStatus (by decide)).1⟩

theorem Built_status (s : ComponentStatus) (h : Built s) :
    s.status = up ∨ s.status = down ∨ s.status = unknown := by
  induction h with
  | new => exact Or.inr (Or.inr rfl)
  | withUp _ _ => exact Or.inl rfl
  | withDown _ _ => exact Or.inr (Or.inl rfl)
  | withDetail _ _ _ ih => exact ih

/-- C16 (as stated) fails: for the zero value `ComponentStatus{}`, which any
program can hold and which is what decoding a component yields, `MarshalJSON`
writes the empty string as `status`, none of the three literals, and `null` as
`details`. -/
theorem zero_MarshalJSON_members :
    ComponentStatusValue.zero.MarshalJSON.get "status" = some (.str "") ∧
    ("" ≠ up ∧ "" ≠ down ∧ "" ≠ unknown) ∧
    ComponentStatusValue.zero.MarshalJSON.get "details" = some .null :=
  ⟨rfl, ⟨by decide, by decide, by decide⟩, rfl⟩

/-- C16 (amended): for a `ComponentStatus` built from `NewComponentStatus` with
the `With` methods, `MarshalJSON` is an object with exactly the two members
`status` and `details`, where `status` is the literal `UP`, `DOWN` or `Unknown`
of its verdict and `details` is an object that holds each key of the details
with its value written as it is (a string as a string, an integer as a number, a
boolean as a boolean, nil as `null`) and no other key. For any value of the type
the two members are the status string as it is and the details, `null` when the
map is nil. A `HealthStatus` is encoded as an object with exactly the members
`status` and `components`. -/
theorem MarshalJSON_members (s : ComponentStatus) (hb : Built s) (v : ComponentStatusValue)
    (hs : HealthStatusValue) :
    s.toValue.MarshalJSON.keys.Perm ["status", "details"] ∧
    ((s.status = up ∧ s.toValue.MarshalJSON.get "status" = some (.str "UP")) ∨
      (s.status = down ∧ s.toValue.MarshalJSON.get "status" = some (.str "DOWN")) ∨
      (s.status = unknown ∧ s.toValue.MarshalJSON.get "status" = some (.str "Unknown"))) ∧
    s.toValue.MarshalJSON.get "details" =
      some (.obj (s.details.map fun e => (e.1, e.2.toJson))) ∧
    (∀ key, ((s.toValue.MarshalJSON.get "details").bind fun j => j.get key) =
      (mapGet s.details key).map Detail.toJson) ∧
    ((∀ x, (Detail.str x).toJson = .str x) ∧ (∀ n, (Detail.int n).toJson = .num n) ∧
      (∀ b, (Detail.bool b).toJson = .bool b) ∧ Detail.null.toJson = .null) ∧
    s.toValue.MarshalJSON = s.MarshalJSON ∧
    v.MarshalJSON.keys.Perm ["status", "details"] ∧
    v.MarshalJSON.get "status" = some (.str v.status) ∧
    v.MarshalJSON.get "details" = some (detailsToJson v.details) ∧
    (v.details = none → v.MarshalJSON.get "details" = some .null) ∧
    hs.Marshal.keys.Perm ["status", "components"] ∧
    hs.Marshal.get "status" = some (.str hs.Status) ∧
    hs.Marshal.get "components" = some (componentsToJson hs.Components) := by
  have hsd : ¬ ("status" = "details") := by decide
  have hsc : ¬ ("status" = "components") := by decide
  have hst : ∀ w : ComponentStatusValue, w.MarshalJSON.get "status" = some (.str w.status) := by
    intro w
    simp [ComponentStatusValue.MarshalJSON, Json.get, mapSet, mapGet]
  have hdt : ∀ w : ComponentStatusValue,
      w.MarshalJSON.get "details" = some (detailsToJson w.details) := by
    intro w
    simp [ComponentStatusValue.MarshalJSON, Json.get, mapSet, mapGet, hsd]
  have hkeys : ∀ w : ComponentStatusValue, w.MarshalJSON.keys.Perm ["status", "details"] := by
    intro w
    simp [ComponentStatusValue.MarshalJSON, Json.keys, mapKeys, mapSet, hsd]
  refine ⟨hkeys _, ?_, hdt _, ?_, ⟨fun _ => rfl, fun _ => rfl, fun _ => rfl, rfl⟩, rfl,
    hkeys v, hst v, hdt v, ?_, ?_, ?_, ?_⟩
  · rcases Built_status s hb with h | h | h
    · exact Or.inl ⟨h, by rw [hst]; exact congrArg (fun x => some (Json.str x)) h⟩
    · exact Or.inr (Or.inl ⟨h, by rw [hst]; exact congrArg (fun x => some (Json.str x)) h⟩)
    · exact Or.inr (Or.inr ⟨h, by rw [hst]; exact congrArg (fun x => some (Json.str x)) h⟩)
  · intro key
    rw [hdt]
    simp [ComponentStatus.toValue, detailsToJson, Json.get, mapGet_map]
  · intro h
    rw [hdt, h]
    rfl
  · simp [HealthStatusValue.Marshal, Json.keys, mapKeys]
  · simp [HealthStatusValue.Marshal, Json.get, mapGet]
  · simp [HealthStatusValue.Marshal, Json.get, mapGet, hsc]

/-- C16 (amended) on the status that the database probe builds. -/
theorem MarshalJSON_members_witness :
    Built ((NewComponentStatus.WithDetail "database" (.str "mysql")).WithUp) ∧
    ((NewComponentStatus.WithDetail "database" (.str "mysql")).WithUp).toValue.MarshalJSON.get
      "details" = some (.obj [("database", .str "mysql")]) :=
  ⟨Built.withUp (Built.withDetail "database" (.str "mysql") Built.new),
    (MarshalJSON_members ((NewComponentStatus.WithDetail "database" (.str "mysql")).WithUp)
      (Built.withUp (Built.withDetail "database" (.str "mysql") Built.new))
      ComponentStatusValue.zero { Status := up, Components := none }).2.2.1⟩

/-! ## The registry -/

theorem mem_mapKeys_mapSet {α : Type} (m : GoMap α) (k : String) (v : α) :
    k ∈ mapKeys (mapSet m k v) := by
  by_cases h : k ∈ mapKeys m
  · rw [mapKeys_mapSet_of_mem m k v h]
    exact h
  · rw [mapKeys_mapSet_of_not_mem m k v h]
    simp

theorem count_mapKeys_mapSet {α : Type} (m : GoMap α) (k : String) (v : α) (h : mapWF m) :
    (mapKeys (mapSet m k v)).count k = 1 :=
  List.count_eq_one_of_mem (mapWF_mapSet m k v h) (mem_mapKeys_mapSet m k v)

/-- C17: `AddChecker(name, p)` makes `p` the checker registered under `name`,
whether or not the name was registered before, and changes neither another
checker entry, nor the observers, nor the cache fields; `AddObserver` does the
same on the observers; after two registrations of a name there is one entry for
it, which holds the second probe. -/
theorem AddChecker_AddObserver_frame (c : CompositeHealthChecker) (name : String)
    (p p' : Indicator) (hc : mapWF c.checkers) (ho : mapWF c.observers) :
    (mapGet (c.AddChecker name p).checkers name = some p ∧
      (∀ k, k ≠ name → mapGet (c.AddChecker name p).checkers k = mapGet c.checkers k) ∧
      (c.AddChecker name p).observers = c.observers ∧
      (c.AddChecker name p).cacheResult = c.cacheResult ∧
      (c.AddChecker name p).cacheValidTime = c.cacheValidTime ∧
      (c.AddChecker name p).cacheTTL = c.cacheTTL) ∧
    (mapGet (c.AddObserver name p).observers name = some p ∧
      (∀ k, k ≠ name → mapGet (c.AddObserver name p).observers k = mapGet c.observers k) ∧
      (c.AddObserver name p).checkers = c.checkers ∧
      (c.AddObserver name p).cacheResult = c.cacheResult ∧
      (c.AddObserver name p).cacheValidTime = c.cacheValidTime ∧
      (c.AddObserver name p).cacheTTL = c.cacheTTL) ∧
    ((mapKeys ((c.AddChecker name p).AddChecker name p').checkers).count name = 1 ∧
      mapGet ((c.AddChecker name p).AddChecker name p').checkers name = some p' ∧
      mapWF ((c.AddChecker name p).AddChecker name p').checkers) ∧
    ((mapKeys ((c.AddObserver name p).AddObserver name p').observers).count name = 1 ∧
      mapGet ((c.AddObserver name p).AddObserver name p').observers name = some p' ∧
      mapWF ((c.AddObserver name p).AddObserver name p').observers) := by
  have hother : ∀ (m : GoMap Indicator) (k : String), k ≠ name →
      mapGet (mapSet m name p) k = mapGet m k := by
    intro m k hk
    have hne : ¬ name = k := fun h => hk h.symm
    rw [mapGet_mapSet, if_neg hne]
  refine ⟨⟨?_, ?_, rfl, rfl, rfl, rfl⟩, ⟨?_, ?_, rfl, rfl, rfl, rfl⟩, ⟨?_, ?_, ?_⟩, ⟨?_, ?_, ?_⟩⟩
  · simp [CompositeHealthChecker.AddChecker, mapGet_mapSet]
  · exact fun k hk => hother c.checkers k hk
  · simp [CompositeHealthChecker.AddObserver, mapGet_mapSet]
  · exact fun k hk => hother c.observers k hk
  · exact count_mapKeys_mapSet _ name p' (mapWF_mapSet c.checkers name p hc)
  · simp [CompositeHealthChecker.AddChecker, mapGet_mapSet]
  · exact mapWF_mapSet _ name p' (mapWF_mapSet c.checkers name p hc)
  · exact count_mapKeys_mapSet _ name p' (mapWF_mapSet c.observers name p ho)
  · simp [CompositeHealthChecker.AddObserver, mapGet_mapSet]
  · exact mapWF_mapSet _ name p' (mapWF_mapSet c.observers name p ho)

/-- C17 on the test registry: registering a down probe and then an up probe
under the existing name `checker-0` leaves two checkers. -/
theorem AddChecker_AddObserver_frame_witness :
    (mapWF testRegistry.checkers ∧ mapWF testRegistry.observers) ∧
    (mapKeys ((testRegistry.AddChecker "checker-0" downIndicator).AddChecker "checker-0"
      upIndicator).checkers).count "checker-0" = 1 :=
  ⟨⟨by decide, by decide⟩,
    (AddChecker_AddObserver_frame testRegistry "checker-0" downIndicator upIndicator
      (by decide) (by decide)).2.2.1.1⟩

/-! ## The status model -/

/-- C18: `NewComponentStatus` has the status `Unknown` and no details; `IsUp`
holds exactly for the status `UP` and `IsDown` exactly for `DOWN`, so a new
status is neither up nor down and no status is both. -/
theorem NewComponentStatus_IsUp_IsDown (s : ComponentStatus) :
    NewComponentStatus.status = unknown ∧
    NewComponentStatus.details = [] ∧
    (s.IsUp = true ↔ s.status = up) ∧
    (s.IsDown = true ↔ s.status = down) ∧
    NewComponentStatus.IsUp = false ∧
    NewComponentStatus.IsDown = false ∧
    ¬ (s.IsUp = true ∧ s.IsDown = true) := by
  refine ⟨rfl, rfl, ?_, ?_, by decide, by decide, ?_⟩
  · simp [ComponentStatus.IsUp]
  · simp [ComponentStatus.IsDown]
  · simp only [ComponentStatus.IsUp, ComponentStatus.IsDown, beq_iff_eq]
    rintro ⟨h₁, h₂⟩
    rw [h₁] at h₂
    exact absurd h₂ (by decide)

/-- C19: `WithDetail(key, value)` makes `details[key]` equal to `value`, also
when the key had a value, and changes neither another detail nor the status;
`WithUp` and `WithDown` set the status to `UP` and `DOWN`, the last call wins,
and they leave the details as they are. The methods return the updated status,
so that calls can be chained. -/
theorem With_frame (s : ComponentStatus) (key : String) (value value' : Detail) :
    mapGet (s.WithDetail key value).details key = some value ∧
    mapGet ((s.WithDetail key value).WithDetail key value').details key = some value' ∧
    (∀ k, k ≠ key → mapGet (s.WithDetail key value).details k = mapGet s.details k) ∧
    (s.WithDetail key value).status = s.status ∧
    s.WithUp.status = up ∧ s.WithUp.details = s.details ∧
    s.WithDown.status = down ∧ s.WithDown.details = s.details ∧
    s.WithUp.WithDown.status = down ∧ s.WithDown.WithUp.status = up ∧
    ((NewComponentStatus.WithDown).WithDetail key value).status = down ∧
    mapGet ((NewComponentStatus.WithDown).WithDetail key value).details key = some value := by
  refine ⟨?_, ?_, ?_, rfl, rfl, rfl, rfl, rfl, rfl, rfl, rfl, ?_⟩
  · simp [ComponentStatus.WithDetail, mapGet_mapSet]
  · simp [ComponentStatus.WithDetail, mapGet_mapSet]
  · intro k hk
    have hne : ¬ key = k := fun h => hk h.symm
    show mapGet (mapSet s.details key value) k = mapGet s.details k
    rw [mapGet_mapSet, if_neg hne]
  · simp [ComponentStatus.WithDetail, mapGet_mapSet]

/-! ## The order of the options -/

/-- C20: the options are applied in the order of the arguments and the last
write of `cacheTTL` wins: after `WithBackground(d), WithCacheTTL(t)` the TTL is
`t`, after `WithCacheTTL(t), WithBackground(d)` it is `2 * d` (in 64-bit
arithmetic), the explicit `t` being discarded. -/
theorem options_in_argument_order (d t : Duration) :
    (NewHealthChecker [WithBackground d, WithCacheTTL t]).cacheTTL = t ∧
    (NewHealthChecker [WithCacheTTL t, WithBackground d]).cacheTTL = wrapInt64 (2 * d) ∧
    (NewHealthChecker [WithBackground d, WithCacheTTL t]).background = true ∧
    (NewHealthChecker [WithCacheTTL t, WithBackground d]).background = true ∧
    (NewHealthChecker [WithBackground d, WithCacheTTL t]).backgroundInterval = d ∧
    (NewHealthChecker [WithCacheTTL t, WithBackground d]).backgroundInterval = d ∧
    (∀ (opts : List HealthCheckerOption) (opt : HealthCheckerOption),
      NewHealthChecker (opts ++ [opt]) = opt (NewHealthChecker opts)) ∧
    (-(2 ^ 62) ≤ d → d < 2 ^ 62 → wrapInt64 (2 * d) = 2 * d) := by
  refine ⟨rfl, rfl, rfl, rfl, rfl, rfl, ?_, ?_⟩
  · intro opts opt
    simp [NewHealthChecker, List.foldl_append]
  · intro h₁ h₂
    exact wrapInt64_two_mul d h₁ h₂

/-! ## The database probe without a connection -/

theorem mem_mapSet {α : Type} (m : GoMap α) (k : String) (v : α) : (k, v) ∈ mapSet m k v := by
  induction m with
  | nil => simp [mapSet]
  | cons e rest ih =>
    obtain ⟨a, b⟩ := e
    by_cases h : a = k
    · simp [mapSet, h]
    · simp [mapSet, h, ih]

theorem mem_mapKeys_mapSet_iff {α : Type} (m : GoMap α) (k k' : String) (v : α) :
    k' ∈ mapKeys (mapSet m k v) ↔ k' ∈ mapKeys m ∨ k' = k := by
  by_cases h : k ∈ mapKeys m
  · rw [mapKeys_mapSet_of_mem m k v h]
    constructor
    · exact Or.inl
    · rintro (h' | h')
      · exact h'
      · rw [h']; exact h
  · rw [mapKeys_mapSet_of_not_mem m k v h]
    simp

theorem doHealthCheck_Components_of_checker (c : CompositeHealthChecker) (sched : Scheduler)
    (hc : mapWF c.checkers) (ho : mapWF c.observers)
    (hdisj : ∀ n ∈ mapKeys c.checkers, n ∉ mapKeys c.observers)
    (e : String × Indicator) (he : e ∈ c.checkers) :
    mapGet (c.doHealthCheck sched).1.Components e.1 = some e.2.Health.1 := by
  have hperm := sched.perm (sendAll c.checkers false ++ sendAll c.observers true)
  have hnames : ((sendAll c.checkers false ++ sendAll c.observers true).map state.name) =
      mapKeys c.checkers ++ mapKeys c.observers := by
    rw [List.map_append, map_name_sendAll, map_name_sendAll]
  have hnd0 : (mapKeys c.checkers ++ mapKeys c.observers).Nodup :=
    List.Nodup.append hc ho (fun n h₁ h₂ => hdisj n h₁ h₂)
  have hpn := hperm.map state.name
  rw [hnames] at hpn
  have hnd : ((sched.run (sendAll c.checkers false ++ sendAll c.observers true)).map
      state.name).Nodup := hpn.nodup_iff.mpr hnd0
  have hcomp : (c.doHealthCheck sched).1.Components =
      (sched.run (sendAll c.checkers false ++ sendAll c.observers true)).foldl
        (fun m r => mapSet m r.name r.status) [] := by
    unfold CompositeHealthChecker.doHealthCheck
    simp only [foldl_aggregateStep_Components]
  have hmem : ({ name := e.1, status := e.2.Health.1, observable := false } : state) ∈
      sched.run (sendAll c.checkers false ++ sendAll c.observers true) := by
    rw [hperm.mem_iff, List.mem_append]
    exact Or.inl (List.mem_map.mpr ⟨e, he, rfl⟩)
  rw [hcomp]
  exact mapGet_foldl_mapSet_of_mem _ [] _ hnd hmem

/-- C21: a database probe whose connection is nil returns the status of
`NewComponentStatus`: `Unknown`, with no detail (no `err`, no `database`), so it
is neither up nor down; registered as a checker under any name of any registry
it makes the aggregate status `DOWN`, while its own component, stored under that
name, is `Unknown` and has no detail. -/
theorem database_Health_without_connection (i : database.Indicator) (hdb : i.db = none) :
    i.Health.status = unknown ∧
    i.Health.details = [] ∧
    mapGet i.Health.details "err" = none ∧
    mapGet i.Health.details "database" = none ∧
    i.Health.IsUp = false ∧
    i.Health.IsDown = false ∧
    (∀ (c : CompositeHealthChecker) (name : String) (sched : Scheduler),
      ((c.AddChecker name i.asIndicator).doHealthCheck sched).1.Status = down ∧
      (mapWF c.checkers → mapWF c.observers →
        (∀ n ∈ mapKeys c.checkers, n ∉ mapKeys c.observers) → name ∉ mapKeys c.observers →
        mapGet ((c.AddChecker name i.asIndicator).doHealthCheck sched).1.Components name =
          some NewComponentStatus)) := by
  have hH : i.Health = NewComponentStatus := by
    simp [database.Indicator.Health, hdb]
  rw [hH]
  refine ⟨rfl, rfl, rfl, rfl, by decide, by decide, ?_⟩
  intro c name sched
  have hres : i.asIndicator.Health.1 = NewComponentStatus := hH
  have hmem : (name, i.asIndicator) ∈ (c.AddChecker name i.asIndicator).checkers :=
    mem_mapSet c.checkers name i.asIndicator
  constructor
  · rw [doHealthCheck_Status]
    have hany : (sendAll (c.AddChecker name i.asIndicator).checkers false).any state.fails
        = true := by
      rw [any_fails_sendAll_false]
      refine ⟨(name, i.asIndicator), hmem, ?_⟩
      show i.asIndicator.Health.1.IsUp = false
      rw [hres]
      decide
    rw [hany]
    rfl
  · intro hc ho hdisj hname
    have hget := doHealthCheck_Components_of_checker (c.AddChecker name i.asIndicator) sched
      (mapWF_mapSet c.checkers name i.asIndicator hc) ho
      (by
        intro n hn
        rcases (mem_mapKeys_mapSet_iff c.checkers name n i.asIndicator).mp hn with h | h
        · exact hdisj n h
        · rw [h]; exact hname)
      (name, i.asIndicator) hmem
    rw [hget]
    exact congrArg some hres

/-- C21 on a MySQL probe without a connection, registered as `db` next to the
two up checkers of the test registry: the aggregate is `DOWN` and the component
`db` is `Unknown` without details. -/
theorem database_Health_without_connection_witness :
    (database.NewMySQLIndicator none).db = none ∧
    ((testRegistry.AddChecker "db" (database.NewMySQLIndicator none).asIndicator).doHealthCheck
      Scheduler.fifo).1.Status = down ∧
    mapGet ((testRegistry.AddChecker "db"
      (database.NewMySQLIndicator none).asIndicator).doHealthCheck
      Scheduler.fifo).1.Components "db" = some NewComponentStatus :=
  ⟨rfl,
    ((database_Health_without_connection (database.NewMySQLIndicator none) rfl).2.2.2.2.2.2
      testRegistry "db" Scheduler.fifo).1,
    ((database_Health_without_connection (database.NewMySQLIndicator none) rfl).2.2.2.2.2.2
      testRegistry "db" Scheduler.fifo).2 (by decide) (by decide) (by decide) (by decide)⟩

end gochecker
